import Mathlib

/-!
# Socket-trace pipeline of `src/stirling/socket_trace_connector.{h,cc}`

A shallow embedding of the stream path of `SocketTraceConnector`:
the connection registry, the per-connection reorder buffer, the
contiguous-run extractor `ParseEventStream` and the stream transfer.

Conventions.
* `std::map<uint64_t, V>` is a list of `(key, value)` pairs kept in strictly
  ascending key order (`StdMap`); iteration order of the C++ map is list order.
* `uint32_t` / `uint64_t` values are natural numbers; arithmetic that can wrap
  is written with an explicit `% 2 ^ 32` / `% 2 ^ 64`.
* `CHECK` failures and undefined behaviour (dereferencing `end()`, advancing an
  iterator past `end()`, indexing a vector out of range) are results
  `Except.error` carrying a `Fault`. `DCHECK`s, which are compiled out of
  release builds, and log statements are not modelled.
* Code that the translation unit uses but that lives in headers outside the
  sources at hand (`http_parse.h`, `socket_trace.h`, `socket_connection.h`) is
  passed in as the fields of `Externals`.
-/

namespace pl.stirling

/-! ## std::map -/

/-- Model of `std::map<uint64_t, V>`: the entries in ascending key order. -/
abbrev StdMap (V : Type) := List (Nat × V)

namespace StdMap

/-- The keys of the map, in iteration order. -/
def keys {V : Type} (m : StdMap V) : List Nat := m.map Prod.fst

/-- Representation invariant of `std::map<uint64_t, V>`: keys are strictly
ascending and fit in 64 bits. -/
@[reducible] def WF {V : Type} (m : StdMap V) : Prop :=
  (keys m).Pairwise (fun a b => a < b) ∧ ∀ k ∈ keys m, k < 2 ^ 64

/-- Lookup, `std::map::find`: `none` stands for `end()`. -/
def find {V : Type} : StdMap V → Nat → Option V
  | [], _ => none
  | (k, v) :: rest, key => if k = key then some v else find rest key

/-- Insertion, `std::map::emplace`: inserts the pair at its place in key order
unless the key is already present, in which case the map is left as it is. -/
def emplace {V : Type} : StdMap V → Nat → V → StdMap V
  | [], key, val => [(key, val)]
  | (k, v) :: rest, key, val =>
    if key < k then (key, val) :: (k, v) :: rest
    else if key = k then (k, v) :: rest
    else (k, v) :: emplace rest key val

/-- Removal by key, `std::map::erase(key)`. -/
def erase {V : Type} : StdMap V → Nat → StdMap V
  | [], _ => []
  | (k, v) :: rest, key => if k = key then rest else (k, v) :: erase rest key

end StdMap

/-! ## Data model -/

/-- The header of a data event (`event.attr`), with the fields the connector reads. -/
structure attr_t where
  timestamp_ns : Nat
  tgid : Nat
  conn_id : Nat
  event_type : Nat
  protocol : Nat
  seq_num : Nat
  msg_size : Nat
deriving DecidableEq, Repr

/-- A data event: header and payload buffer (`event.msg`, one number per byte). -/
structure socket_data_event_t where
  attr : attr_t
  msg : List Nat
deriving DecidableEq, Repr

/-- A connection open/close record, with the fields the connector reads;
`addr` stands for the raw socket address handed to `ParseSockAddr`. -/
structure conn_info_t where
  timestamp_ns : Nat
  tgid : Nat
  fd : Nat
  conn_id : Nat
  addr : List Nat
deriving DecidableEq, Repr

/-- A parsed remote endpoint. -/
structure IPEndpoint where
  ip : String
  port : Int
deriving DecidableEq, Repr

/-- The connection fields copied into a stream (`EventStream::conn`). -/
structure SocketConnection where
  timestamp_ns : Nat
  tgid : Nat
  fd : Nat
  remote_addr : String
  remote_port : Int
deriving DecidableEq, Repr

/-- Per-connection stream state (`struct EventStream`). -/
structure EventStream where
  conn : SocketConnection
  protocol : Nat
  recv_events : StdMap socket_data_event_t
  send_events : StdMap socket_data_event_t
  recv_offset : Nat
  send_offset : Nat
deriving DecidableEq, Repr

/-- The two kinds of message the parser can be asked for. -/
inductive TrafficMessageType where
  | kMessageTypeRequests
  | kMessageTypeResponses
deriving DecidableEq, Repr

/-- The kind of a parsed HTTP message, `SocketTraceEventType` of `http_parse.h`
(the header is not among the sources). `SelectHTTPMessage` tests for
`kHTTPRequest` and for `kHTTPResponse` separately; `kUnknown` is the kind of a
message that is neither. -/
inductive SocketTraceEventType where
  | kUnknown
  | kHTTPRequest
  | kHTTPResponse
deriving DecidableEq, Repr

/-- A parsed HTTP message, with the fields the connector reads. -/
structure HTTPMessage where
  type : SocketTraceEventType
  timestamp_ns : Nat
  http_minor_version : Int
  http_headers : List (String × String)
  http_req_method : String
  http_req_path : String
  http_resp_status : Int
  http_resp_message : String
  http_msg_body : String
deriving DecidableEq, Repr

/-- Where the parser stopped: `seq_num` slices were consumed whole and `offset`
bytes of the slice after them. -/
structure BufferPosition where
  seq_num : Nat
  offset : Nat
deriving DecidableEq, Repr

/-- What `HTTPParser::ParseMessages` returns. -/
structure HTTPParseResult where
  messages : List HTTPMessage
  end_position : BufferPosition
deriving DecidableEq, Repr

/-- A connection paired with one of its messages. -/
structure HTTPTraceRecord where
  conn : SocketConnection
  message : HTTPMessage
deriving DecidableEq, Repr

/-- The header filter: inclusion and exclusion pairs `header:substring`. -/
structure HTTPHeaderFilter where
  inclusions : List (String × String)
  exclusions : List (String × String)
deriving DecidableEq, Repr

/-- One row of the HTTP table, a value for each column of `kHTTPElements`. -/
structure HTTPRow where
  time_ : Nat
  tgid : Nat
  fd : Nat
  event_type : String
  remote_addr : String
  remote_port : Int
  http_minor_version : Int
  http_headers : String
  http_req_method : String
  http_req_path : String
  http_resp_status : Int
  http_resp_message : String
  http_resp_body : String
  http_resp_latency_ns : Nat
deriving DecidableEq, Repr

/-- The ways a call can fail to return: a failed `CHECK` or undefined behaviour. -/
inductive Fault where
  | begin_of_empty_map
  | check_offset_lt_msg_size
  | check_eq_orig_offset
  | advance_past_end
  | index_out_of_range
  | check_requestor_xor_responder
  | check_table_num
  | check_false
  | compile_time_assert
deriving DecidableEq, Repr

/-- Everything the translation unit takes from headers that are not among the
sources: the constants of `socket_trace.h`, the clock offset, `HTTPParser`,
`ParseSockAddr`, the default-constructed `SocketConnection` and `IPEndpoint`,
and the helpers of `http_parse.h` used on the emission path. -/
structure Externals where
  kEventTypeSyscallWriteEvent : Nat
  kEventTypeSyscallSendEvent : Nat
  kEventTypeSyscallReadEvent : Nat
  kEventTypeSyscallRecvEvent : Nat
  kProtocolHTTP : Nat
  kProtocolHTTP2 : Nat
  kSocketTraceSendReq : Nat
  kSocketTraceSendResp : Nat
  kSocketTraceRecvReq : Nat
  kSocketTraceRecvResp : Nat
  ClockRealTimeOffset : Nat
  ParseMessages : TrafficMessageType → List (List Nat × Nat) → HTTPParseResult
  ParseSockAddr : conn_info_t → Option IPEndpoint
  defaultSocketConnection : SocketConnection
  defaultIPEndpoint : IPEndpoint
  kContentType : String
  MatchesHTTPTHeaders : List (String × String) → HTTPHeaderFilter → Bool
  PreProcessHTTPRecord : HTTPTraceRecord → HTTPTraceRecord
  EventTypeToString : SocketTraceEventType → String

/-- The members of `SocketTraceConnector` the stream path reads and writes. -/
structure SocketTraceConnector where
  http_streams_ : StdMap EventStream
  http2_streams_ : StdMap EventStream
  connections_ : StdMap conn_info_t
  ip_endpoints_ : StdMap (Option IPEndpoint)
  config_mask_ : List Nat
  http_response_header_filter_ : HTTPHeaderFilter

/-! ## Stream functions -/

/-- The direction of an event (`enum class StreamDirection`). -/
inductive StreamDirection where
  | kUnknown
  | kSend
  | kRecv
deriving DecidableEq, Repr

/-- `EventStreamDirection`: the switch over the event type. -/
def EventStreamDirection (x : Externals) (event_type : Nat) : StreamDirection :=
  if event_type = x.kEventTypeSyscallWriteEvent then StreamDirection.kSend
  else if event_type = x.kEventTypeSyscallSendEvent then StreamDirection.kSend
  else if event_type = x.kEventTypeSyscallReadEvent then StreamDirection.kRecv
  else if event_type = x.kEventTypeSyscallRecvEvent then StreamDirection.kRecv
  else StreamDirection.kUnknown

/-- `GetStreamId(uint32_t tgid, uint32_t conn_id)`:
`(static_cast<uint64_t>(tgid) << 32) | conn_id`. -/
def GetStreamId (tgid conn_id : Nat) : Nat :=
  (((tgid % 2 ^ 32) <<< 32) % 2 ^ 64) ||| (conn_id % 2 ^ 32)

/-- `SocketTraceConnector::OpenConn`. -/
def OpenConn (c : SocketTraceConnector) (conn_info : conn_info_t) : SocketTraceConnector :=
  let stream_id := GetStreamId conn_info.tgid conn_info.conn_id
  { c with connections_ := StdMap.emplace c.connections_ stream_id conn_info }

/-- `SocketTraceConnector::CloseConn`. -/
def CloseConn (c : SocketTraceConnector) (conn_info : conn_info_t) : SocketTraceConnector :=
  let stream_id := GetStreamId conn_info.tgid conn_info.conn_id
  { c with connections_ := StdMap.erase c.connections_ stream_id,
           ip_endpoints_ := StdMap.erase c.ip_endpoints_ stream_id }

/-- `SocketTraceConnector::GetConn`: `none` stands for `nullptr`. -/
def GetConn (c : SocketTraceConnector) (event : socket_data_event_t) : Option conn_info_t :=
  let stream_id := GetStreamId event.attr.tgid event.attr.conn_id
  StdMap.find c.connections_ stream_id

/-- Which of the two stream tables a call of the templates `AppendToStream` and
`RegisterStream` works on: `http_streams_` (`HTTPStream`) or `http2_streams_`
(`HTTP2Stream`). -/
inductive StreamKind where
  | kHTTPStream
  | kHTTP2Stream
deriving DecidableEq, Repr

/-- The stream table `streams` points to. -/
def streamsOf (c : SocketTraceConnector) : StreamKind → StdMap EventStream
  | StreamKind.kHTTPStream => c.http_streams_
  | StreamKind.kHTTP2Stream => c.http2_streams_

/-- Writing through the pointer `streams`. -/
def setStreams (c : SocketTraceConnector) (kind : StreamKind) (m : StdMap EventStream) :
    SocketTraceConnector :=
  match kind with
  | StreamKind.kHTTPStream => { c with http_streams_ := m }
  | StreamKind.kHTTP2Stream => { c with http2_streams_ := m }

/-- A default-constructed `HTTPStream` / `HTTP2Stream`: empty maps, zero offsets
and the protocol set by the constructor. -/
def newStream (x : Externals) : StreamKind → EventStream
  | StreamKind.kHTTPStream =>
    { conn := x.defaultSocketConnection, protocol := x.kProtocolHTTP,
      recv_events := [], send_events := [], recv_offset := 0, send_offset := 0 }
  | StreamKind.kHTTP2Stream =>
    { conn := x.defaultSocketConnection, protocol := x.kProtocolHTTP2,
      recv_events := [], send_events := [], recv_offset := 0, send_offset := 0 }

/-- `SocketTraceConnector::RegisterStream`: builds the stream from the connection,
caches the endpoint parse result and emplaces the stream under `stream_id`. -/
def RegisterStream (x : Externals) (c : SocketTraceConnector) (kind : StreamKind)
    (conn_info : conn_info_t) (stream_id : Nat) : SocketTraceConnector :=
  let new_stream := newStream x kind
  let conn0 : SocketConnection :=
    { new_stream.conn with
      timestamp_ns := (conn_info.timestamp_ns + x.ClockRealTimeOffset) % 2 ^ 64,
      tgid := conn_info.tgid,
      fd := conn_info.fd }
  let ip_endpoint_or := x.ParseSockAddr conn_info
  let conn1 : SocketConnection :=
    match ip_endpoint_or with
    | some ep => { conn0 with remote_addr := ep.ip, remote_port := ep.port }
    | none => conn0
  let c1 := { c with ip_endpoints_ := StdMap.emplace c.ip_endpoints_ stream_id ip_endpoint_or }
  setStreams c1 kind (StdMap.emplace (streamsOf c1 kind) stream_id { new_stream with conn := conn1 })

/-- The switch at the end of `AppendToStream` (lines 229-239), acting on the
stream `iter->second`. -/
def AppendToStream_insert (x : Externals) (stream : EventStream) (event : socket_data_event_t) :
    EventStream :=
  let seq_num := event.attr.seq_num
  match EventStreamDirection x event.attr.event_type with
  | StreamDirection.kSend =>
    { stream with send_events := StdMap.emplace stream.send_events seq_num event }
  | StreamDirection.kRecv =>
    { stream with recv_events := StdMap.emplace stream.recv_events seq_num event }
  | StreamDirection.kUnknown => stream

/-- In-place update of the value stored under a key (writing through `iter->second`). -/
def StdMap.modify {V : Type} : StdMap V → Nat → (V → V) → StdMap V
  | [], _, _ => []
  | (k, v) :: rest, key, f =>
    if k = key then (k, f v) :: rest else (k, v) :: StdMap.modify rest key f

/-- `SocketTraceConnector::AppendToStream`. -/
def AppendToStream (x : Externals) (c : SocketTraceConnector) (kind : StreamKind)
    (event : socket_data_event_t) : SocketTraceConnector :=
  let stream_id := GetStreamId event.attr.tgid event.attr.conn_id
  match StdMap.find (streamsOf c kind) stream_id with
  | some _ =>
    setStreams c kind
      (StdMap.modify (streamsOf c kind) stream_id (fun s => AppendToStream_insert x s event))
  | none =>
    match StdMap.find c.connections_ stream_id with
    | some conn_info =>
      let c1 := RegisterStream x c kind conn_info stream_id
      setStreams c1 kind
        (StdMap.modify (streamsOf c1 kind) stream_id (fun s => AppendToStream_insert x s event))
    | none => c

/-- `SocketTraceConnector::AcceptEvent`. -/
def AcceptEvent (x : Externals) (c : SocketTraceConnector) (event : socket_data_event_t) :
    SocketTraceConnector :=
  let event1 : socket_data_event_t :=
    { event with attr := { event.attr with
        timestamp_ns := (event.attr.timestamp_ns + x.ClockRealTimeOffset) % 2 ^ 64 } }
  if event1.attr.protocol = x.kProtocolHTTP then
    AppendToStream x c StreamKind.kHTTPStream event1
  else if event1.attr.protocol = x.kProtocolHTTP2 then
    AppendToStream x c StreamKind.kHTTP2Stream event1
  else c

/-! ## HTTP transfer -/

/-- The payload of an event, `std::string_view msg(event.msg, event.attr.msg_size)`. -/
def payload (event : socket_data_event_t) : List Nat :=
  event.msg.take event.attr.msg_size

/-- The loop of `ParseEventStream` (lines 331-351) over the entries from the
iterator position on. The arguments are the loop state: the remaining entries,
`next_seq_num` and `*offset`. The result is what was handed to `parser.Append`,
in order (the slice, which is also pushed to `msgs`, and its timestamp), and the
final `*offset`. -/
def ParseEventStream_loop (x : Externals) :
    List (Nat × socket_data_event_t) → Nat → Nat → Except Fault (List (List Nat × Nat) × Nat)
  | [], _, offset => Except.ok ([], offset)
  | (seq_num, event) :: rest, next_seq_num, offset =>
    if seq_num ≠ next_seq_num then Except.ok ([], offset)
    else
      let msg := payload event
      let ts := (event.attr.timestamp_ns + x.ClockRealTimeOffset) % 2 ^ 64
      if offset ≠ 0 then
        if offset < event.attr.msg_size then
          match ParseEventStream_loop x rest ((next_seq_num + 1) % 2 ^ 64) 0 with
          | Except.ok (msgs, off) =>
            Except.ok (((msg.drop offset).take (event.attr.msg_size - offset), ts) :: msgs, off)
          | Except.error e => Except.error e
        else Except.error Fault.check_offset_lt_msg_size
      else
        match ParseEventStream_loop x rest ((next_seq_num + 1) % 2 ^ 64) offset with
        | Except.ok (msgs, off) => Except.ok ((msg, ts) :: msgs, off)
        | Except.error e => Except.error e

/-- What a call of `ParseEventStream` leaves behind: the slices it submitted to
the parser (`submitted`, with their timestamps), the map and the offset it
wrote back through its pointers, and the messages it returned. -/
structure ParseEventStreamResult where
  submitted : List (List Nat × Nat)
  events : StdMap socket_data_event_t
  offset : Nat
  messages : List HTTPMessage
deriving DecidableEq, Repr

/-- `SocketTraceConnector::ParseEventStream`. -/
def ParseEventStream (x : Externals) (type : TrafficMessageType)
    (events : StdMap socket_data_event_t) (offset : Nat) : Except Fault ParseEventStreamResult :=
  let orig_offset := offset
  match events with
  | [] => Except.error Fault.begin_of_empty_map
  | (first, _) :: _ =>
    match ParseEventStream_loop x events first offset with
    | Except.error e => Except.error e
    | Except.ok (msgs, offset1) =>
      let parse_result := x.ParseMessages type msgs
      if offset1 ≠ 0 ∧ parse_result.end_position.seq_num = 0 ∧
          parse_result.end_position.offset ≠ orig_offset then
        Except.error Fault.check_eq_orig_offset
      else if events.length < parse_result.end_position.seq_num then
        Except.error Fault.advance_past_end
      else
        Except.ok
          { submitted := msgs,
            events := events.drop parse_result.end_position.seq_num,
            offset := parse_result.end_position.offset,
            messages := parse_result.messages }

/-- `SocketTraceConnector::SelectHTTPMessage`. -/
def SelectHTTPMessage (x : Externals) (filter : HTTPHeaderFilter) (record : HTTPTraceRecord) :
    Bool :=
  if record.message.type = SocketTraceEventType.kHTTPRequest then false
  else if (record.message.http_headers.find? (fun p => p.1 = x.kContentType)).isNone then false
  else if record.message.type = SocketTraceEventType.kHTTPResponse ∧
      (filter.inclusions ≠ [] ∨ filter.exclusions ≠ []) then
    if x.MatchesHTTPTHeaders record.message.http_headers filter then true else false
  else true

/-- The rendering of the headers, `absl::StrJoin(headers, "\n", absl::PairFormatter(": "))`. -/
def StrJoinHeaders (headers : List (String × String)) : String :=
  String.intercalate "\n" (headers.map (fun p => p.1 ++ ": " ++ p.2))

/-- `SocketTraceConnector::AppendHTTPMessage`: the row pushed to the record batch. -/
def AppendHTTPMessage (x : Externals) (record : HTTPTraceRecord) : HTTPRow :=
  { time_ := record.message.timestamp_ns,
    tgid := record.conn.tgid,
    fd := record.conn.fd,
    event_type := x.EventTypeToString record.message.type,
    remote_addr := record.conn.remote_addr,
    remote_port := record.conn.remote_port,
    http_minor_version := record.message.http_minor_version,
    http_headers := StrJoinHeaders record.message.http_headers,
    http_req_method := record.message.http_req_method,
    http_req_path := record.message.http_req_path,
    http_resp_status := record.message.http_resp_status,
    http_resp_message := record.message.http_resp_message,
    http_resp_body := record.message.http_msg_body,
    http_resp_latency_ns :=
      (record.message.timestamp_ns + 2 ^ 64 - record.conn.timestamp_ns % 2 ^ 64) % 2 ^ 64 }

/-- `SocketTraceConnector::ConsumeHTTPMessage`: the rows it appends (none or one). -/
def ConsumeHTTPMessage (x : Externals) (filter : HTTPHeaderFilter) (record : HTTPTraceRecord) :
    List HTTPRow :=
  if SelectHTTPMessage x filter record then
    [AppendHTTPMessage x (x.PreProcessHTTPRecord record)]
  else []

/-- The local `is_requestor_side` of `TransferHTTPStreams`, from the mask of the
stream's protocol. -/
def is_requestor_side (x : Externals) (mask : Nat) : Bool :=
  (mask &&& x.kSocketTraceSendReq) ≠ 0 || (mask &&& x.kSocketTraceRecvResp) ≠ 0

/-- The local `is_responder_side` of `TransferHTTPStreams`. -/
def is_responder_side (x : Externals) (mask : Nat) : Bool :=
  (mask &&& x.kSocketTraceSendResp) ≠ 0 || (mask &&& x.kSocketTraceRecvReq) ≠ 0

/-- The map the reference `resp_events` is bound to (line 385-386). -/
def resp_events (requestor : Bool) (stream : EventStream) : StdMap socket_data_event_t :=
  if requestor then stream.recv_events else stream.send_events

/-- The offset the reference `resp_offset` is bound to (line 387). -/
def resp_offset (requestor : Bool) (stream : EventStream) : Nat :=
  if requestor then stream.send_offset else stream.recv_offset

/-- Writing the map and the offset back through the references `resp_events` and
`resp_offset`. -/
def set_resp (requestor : Bool) (stream : EventStream) (events : StdMap socket_data_event_t)
    (offset : Nat) : EventStream :=
  if requestor then { stream with recv_events := events, send_offset := offset }
  else { stream with send_events := events, recv_offset := offset }

/-- The body of the loop of `TransferHTTPStreams` (lines 375-403) for one
stream: the stream as it is left and the rows appended. -/
def TransferHTTPStreams_body (x : Externals) (config_mask_ : List Nat)
    (filter : HTTPHeaderFilter) (stream : EventStream) :
    Except Fault (EventStream × List HTTPRow) :=
  match config_mask_[stream.protocol]? with
  | none => Except.error Fault.index_out_of_range
  | some mask =>
    if (is_requestor_side x mask != is_responder_side x mask) = false then
      Except.error Fault.check_requestor_xor_responder
    else
      match ParseEventStream x TrafficMessageType.kMessageTypeResponses
          (resp_events (is_requestor_side x mask) stream)
          (resp_offset (is_requestor_side x mask) stream) with
      | Except.error e => Except.error e
      | Except.ok r =>
        Except.ok (set_resp (is_requestor_side x mask) stream r.events r.offset,
          (r.messages.map (fun msg =>
            ConsumeHTTPMessage x filter { conn := stream.conn, message := msg })).flatten)

/-- The loop of `TransferHTTPStreams` over the streams in key order. -/
def TransferHTTPStreams_loop (x : Externals) (config_mask_ : List Nat)
    (filter : HTTPHeaderFilter) :
    StdMap EventStream → Except Fault (StdMap EventStream × List HTTPRow)
  | [] => Except.ok ([], [])
  | (id, stream) :: rest =>
    match TransferHTTPStreams_body x config_mask_ filter stream with
    | Except.error e => Except.error e
    | Except.ok (stream1, rows) =>
      match TransferHTTPStreams_loop x config_mask_ filter rest with
      | Except.error e => Except.error e
      | Except.ok (rest1, rows1) => Except.ok ((id, stream1) :: rest1, rows ++ rows1)

/-- `SocketTraceConnector::TransferHTTPStreams`: the connector as it is left and
the record batch with the appended rows. -/
def TransferHTTPStreams (x : Externals) (c : SocketTraceConnector) (record_batch : List HTTPRow) :
    Except Fault (SocketTraceConnector × List HTTPRow) :=
  match TransferHTTPStreams_loop x c.config_mask_ c.http_response_header_filter_ c.http_streams_ with
  | Except.error e => Except.error e
  | Except.ok (streams, rows) => Except.ok ({ c with http_streams_ := streams }, record_batch ++ rows)

/-! ## The end-position contract and sample inputs -/

/-- The end-position contract of the parser on the slices it was given: it
counts no more slices than it was given, and the trailing offset is zero or
lies inside the slice after the ones consumed whole. -/
def HonoursEndPosition (slices : List (List Nat × Nat)) (pos : BufferPosition) : Prop :=
  pos.seq_num ≤ slices.length ∧
    (pos.offset = 0 ∨ pos.offset < ((slices.map Prod.fst).getD pos.seq_num []).length)

/-- The number of bytes in front of an end position: the slices consumed whole
and the trailing offset. -/
def bytesConsumed (slices : List (List Nat × Nat)) (pos : BufferPosition) : Nat :=
  ((slices.take pos.seq_num).map (fun s => s.1.length)).sum + pos.offset

/-- The sum of the payload sizes of the first `n` entries of an event map. -/
def erasedSize (events : StdMap socket_data_event_t) (n : Nat) : Nat :=
  ((events.take n).map (fun kv => kv.2.attr.msg_size)).sum

/-- The end position after `consumed` bytes of the slices. -/
def positionAfter : List (List Nat × Nat) → Nat → BufferPosition
  | [], _ => { seq_num := 0, offset := 0 }
  | s :: rest, consumed =>
    if s.1.length ≤ consumed then
      { seq_num := (positionAfter rest (consumed - s.1.length)).seq_num + 1,
        offset := (positionAfter rest (consumed - s.1.length)).offset }
    else { seq_num := 0, offset := consumed }

/-- One response per complete group of four bytes, carrying the first byte of
the group as its status. -/
def fourByteMessages : List Nat → List HTTPMessage
  | a :: _ :: _ :: _ :: rest =>
    { type := SocketTraceEventType.kHTTPResponse, timestamp_ns := 0, http_minor_version := 1,
      http_headers := [("Content-Type", "json")], http_req_method := "", http_req_path := "",
      http_resp_status := a, http_resp_message := "", http_msg_body := "" } ::
      fourByteMessages rest
  | _ => []

/-- A sample streaming parser for a protocol whose messages are four bytes long:
it emits every complete message of the bytes it is given and stops at the first
byte of the incomplete rest. It is deterministic, honours the end-position
contract and consumes nothing when given only an incomplete message. -/
def fourByteParser (_ : TrafficMessageType) (slices : List (List Nat × Nat)) : HTTPParseResult :=
  let bytes := (slices.map Prod.fst).flatten
  { messages := fourByteMessages bytes,
    end_position := positionAfter slices (bytes.length - bytes.length % 4) }

/-- Sample values for the externals: distinct event types and protocol tags,
one bit per mask flag, a zero clock offset and the given parser. -/
def sampleExternals
    (parse : TrafficMessageType → List (List Nat × Nat) → HTTPParseResult) : Externals :=
  { kEventTypeSyscallWriteEvent := 1, kEventTypeSyscallSendEvent := 2,
    kEventTypeSyscallReadEvent := 3, kEventTypeSyscallRecvEvent := 4,
    kProtocolHTTP := 1, kProtocolHTTP2 := 2,
    kSocketTraceSendReq := 1, kSocketTraceSendResp := 2,
    kSocketTraceRecvReq := 4, kSocketTraceRecvResp := 8,
    ClockRealTimeOffset := 0,
    ParseMessages := parse,
    ParseSockAddr := fun _ => none,
    defaultSocketConnection :=
      { timestamp_ns := 0, tgid := 0, fd := 0, remote_addr := "-", remote_port := -1 },
    defaultIPEndpoint := { ip := "", port := 0 },
    kContentType := "Content-Type",
    MatchesHTTPTHeaders := fun _ _ => true,
    PreProcessHTTPRecord := fun r => r,
    EventTypeToString := fun _ => "" }

/-- A sample data event of the HTTP protocol with the given event type,
sequence number and payload. -/
def sampleEvent (event_type seq_num : Nat) (bytes : List Nat) : socket_data_event_t :=
  { attr := { timestamp_ns := 0, tgid := 1, conn_id := 1, event_type := event_type,
              protocol := 1, seq_num := seq_num, msg_size := bytes.length },
    msg := bytes }

/-- A sample connection record of process 1, connection 1. -/
def sampleConn (fd : Nat) : conn_info_t :=
  { timestamp_ns := 0, tgid := 1, fd := fd, conn_id := 1, addr := [] }

/-- A connector with no streams, the given registry, the requestor-side mask
(`kSocketTraceSendReq | kSocketTraceRecvResp`) for every protocol and an empty
header filter. -/
def sampleConnector (connections : StdMap conn_info_t) : SocketTraceConnector :=
  { http_streams_ := [], http2_streams_ := [], connections_ := connections,
    ip_endpoints_ := [], config_mask_ := [9, 9, 9, 9],
    http_response_header_filter_ := { inclusions := [], exclusions := [] } }

/-! ## The offset invariant -/

/-- The offset invariant of one direction: the offset is strictly less than the
payload size of the smallest-keyed event, or zero when the map is empty. -/
def OffsetInv (events : StdMap socket_data_event_t) (offset : Nat) : Prop :=
  match events with
  | [] => offset = 0
  | (_, e) :: _ => offset < e.attr.msg_size

/-- The offset invariant can be decided. -/
instance OffsetInv.decidable : (events : StdMap socket_data_event_t) → (offset : Nat) →
    Decidable (OffsetInv events offset)
  | [], offset => inferInstanceAs (Decidable (offset = 0))
  | (_, e) :: _, offset => inferInstanceAs (Decidable (offset < e.attr.msg_size))

/-- An insertion under `seq_num` leaves the head of the map where it is: the map
is empty or its smallest key is below `seq_num`. -/
def keepsHead (events : StdMap socket_data_event_t) (seq_num : Nat) : Prop :=
  match events with
  | [] => True
  | (k, _) :: _ => k < seq_num

/-- In-order admission: the event has a non-empty payload and its sequence
number is above the smallest key already in the map of its direction. -/
def InOrder (x : Externals) (stream : EventStream) (event : socket_data_event_t) : Prop :=
  0 < event.attr.msg_size ∧
    match EventStreamDirection x event.attr.event_type with
    | StreamDirection.kSend => keepsHead stream.send_events event.attr.seq_num
    | StreamDirection.kRecv => keepsHead stream.recv_events event.attr.seq_num
    | StreamDirection.kUnknown => True

/-- The stream states reachable from a freshly registered stream by in-order
admissions (the insertion of `AppendToStream`) and by passes of the loop body
of `TransferHTTPStreams` that return. -/
inductive Reachable (x : Externals) (config_mask_ : List Nat) (filter : HTTPHeaderFilter) :
    EventStream → Prop where
  | registered (kind : StreamKind) (conn : SocketConnection) :
    Reachable x config_mask_ filter { newStream x kind with conn := conn }
  | append (stream : EventStream) (event : socket_data_event_t) :
    Reachable x config_mask_ filter stream → InOrder x stream event →
    Reachable x config_mask_ filter (AppendToStream_insert x stream event)
  | transfer (stream stream1 : EventStream) (rows : List HTTPRow) :
    Reachable x config_mask_ filter stream →
    TransferHTTPStreams_body x config_mask_ filter stream = Except.ok (stream1, rows) →
    Reachable x config_mask_ filter stream1

/-! ## MySQL transfer -/

/-- One row of the MySQL table, a value for each column of `kMySQLElements`. -/
structure MySQLRow where
  time_ : Nat
  tgid : Nat
  fd : Int
  bpf_event : Nat
  remote_addr : String
  remote_port : Int
  body : List Nat
deriving DecidableEq, Repr

/-- `SocketTraceConnector::TransferMySQLEvent`: the record batch with the row
appended. The connector is only read. -/
def TransferMySQLEvent (x : Externals) (c : SocketTraceConnector) (event : socket_data_event_t)
    (record_batch : List MySQLRow) : List MySQLRow :=
  let conn_info := GetConn c event
  let stream_id := GetStreamId event.attr.tgid event.attr.conn_id
  let endpoint : Int × String × Int :=
    match conn_info with
    | some ci =>
      match StdMap.find c.ip_endpoints_ stream_id with
      | some s =>
        let remote_sockaddr : IPEndpoint :=
          match s with
          | some v => v
          | none => x.defaultIPEndpoint
        ((ci.fd : Int), remote_sockaddr.ip, remote_sockaddr.port)
      | none => (-1, "-", -1)
    | none => (-1, "-", -1)
  record_batch ++
    [{ time_ := (event.attr.timestamp_ns + x.ClockRealTimeOffset) % 2 ^ 64,
       tgid := event.attr.tgid,
       fd := endpoint.1,
       bpf_event := event.attr.event_type,
       remote_addr := endpoint.2.1,
       remote_port := endpoint.2.2,
       body := payload event }]

/-! ## Sequences of connector calls -/

/-- The calls the perf-buffer callbacks and the tick make on the connector
state: `OpenConn`, `CloseConn`, `AcceptEvent` and `TransferHTTPStreams`. -/
inductive ConnectorCall where
  | openConn (conn_info : conn_info_t)
  | closeConn (conn_info : conn_info_t)
  | acceptEvent (event : socket_data_event_t)
  | transfer
deriving DecidableEq, Repr

/-- The connector after one call; `none` when the call aborts. The rows a
transfer appends are not kept here. -/
def applyCall (x : Externals) (c : SocketTraceConnector) : ConnectorCall →
    Option SocketTraceConnector
  | ConnectorCall.openConn conn_info => some (OpenConn c conn_info)
  | ConnectorCall.closeConn conn_info => some (CloseConn c conn_info)
  | ConnectorCall.acceptEvent event => some (AcceptEvent x c event)
  | ConnectorCall.transfer =>
    match TransferHTTPStreams x c [] with
    | Except.ok (c1, _) => some c1
    | Except.error _ => none

/-- The connector after a sequence of calls, in order. -/
def applyCalls (x : Externals) : SocketTraceConnector → List ConnectorCall →
    Option SocketTraceConnector
  | c, [] => some c
  | c, call :: rest =>
    match applyCall x c call with
    | some c1 => applyCalls x c1 rest
    | none => none

/-! ## The header filter -/

/-- Substring containment, `absl::StrContains`. -/
def StrContains (haystack needle : String) : Bool :=
  decide (needle.toList <:+: haystack.toList)

/-- Modelled from the spec: the match of one filter pair `header:substring`
against the headers of a message (the body of `MatchesHTTPTHeaders` in
`http_parse.cc` is not among the sources). The pair matches when the message
has that header with a value containing the substring. -/
def HeaderPairMatches (http_headers : List (String × String)) (pair : String × String) : Bool :=
  match http_headers.find? (fun p => p.1 = pair.1) with
  | some p => StrContains p.2 pair.2
  | none => false

/-- Modelled from the spec: `MatchesHTTPTHeaders` of `http_parse.h`, which is
not among the sources. A message matches when it matches any inclusion pair
(an empty inclusion set is no constraint) and matches no exclusion pair. -/
def MatchesHTTPTHeaders (http_headers : List (String × String)) (filter : HTTPHeaderFilter) :
    Bool :=
  (filter.inclusions.isEmpty || filter.inclusions.any (HeaderPairMatches http_headers)) &&
    !(filter.exclusions.any (HeaderPairMatches http_headers))

/-! ## More sample inputs -/

/-- A sample parser for a protocol in which every slice is one response: it
emits one message per slice, with the timestamp of the slice that holds its
first byte, and consumes every slice whole. -/
def sliceParser (_ : TrafficMessageType) (slices : List (List Nat × Nat)) : HTTPParseResult :=
  { messages := slices.map (fun s =>
      { type := SocketTraceEventType.kHTTPResponse, timestamp_ns := s.2,
        http_minor_version := 1, http_headers := [("Content-Type", "json")],
        http_req_method := "", http_req_path := "", http_resp_status := 200,
        http_resp_message := "", http_msg_body := "" }),
    end_position := { seq_num := slices.length, offset := 0 } }

/-- Sample externals with the slice parser and a clock offset of 1000 ns. -/
def sampleExternalsClock : Externals :=
  { sampleExternals sliceParser with ClockRealTimeOffset := 1000 }

/-- A sample data event of the HTTP protocol of process 1, connection 1, with
the given event type, sequence number, monotonic timestamp and payload. -/
def sampleEventAt (event_type seq_num timestamp_ns : Nat) (bytes : List Nat) :
    socket_data_event_t :=
  { attr := { timestamp_ns := timestamp_ns, tgid := 1, conn_id := 1, event_type := event_type,
              protocol := 1, seq_num := seq_num, msg_size := bytes.length },
    msg := bytes }

/-- A sample open record of process 1, connection 1, with the given monotonic
timestamp. -/
def sampleConnAt (timestamp_ns : Nat) : conn_info_t :=
  { timestamp_ns := timestamp_ns, tgid := 1, fd := 5, conn_id := 1, addr := [] }

/-- Sample externals whose header match is the one modelled from the spec. -/
def sampleExternalsFilter : Externals :=
  { sampleExternals fourByteParser with MatchesHTTPTHeaders := MatchesHTTPTHeaders }

/-- A sample HTTP response with the given headers. -/
def sampleResponse (http_headers : List (String × String)) : HTTPTraceRecord :=
  { conn := { timestamp_ns := 0, tgid := 1, fd := 5, remote_addr := "-", remote_port := -1 },
    message :=
      { type := SocketTraceEventType.kHTTPResponse, timestamp_ns := 0, http_minor_version := 1,
        http_headers := http_headers, http_req_method := "", http_req_path := "",
        http_resp_status := 200, http_resp_message := "OK", http_msg_body := "" } }

/-! ## Tables, perf buffers and the tick -/

/-- A table schema (`DataTableSchema`): its name and the names of its columns. -/
structure DataTableSchema where
  name : String
  elements : List String
deriving DecidableEq, Repr

/-- `SocketTraceConnector::kHTTPTable`, with the columns of `kHTTPElements`. -/
def kHTTPTable : DataTableSchema :=
  { name := "http_events",
    elements := ["time_", "tgid", "fd", "event_type", "remote_addr", "remote_port",
      "http_minor_version", "http_headers", "http_req_method", "http_req_path",
      "http_resp_status", "http_resp_message", "http_resp_body", "http_resp_latency_ns"] }

/-- `SocketTraceConnector::kMySQLTable`, with the columns of `kMySQLElements`. -/
def kMySQLTable : DataTableSchema :=
  { name := "mysql_events",
    elements := ["time_", "tgid", "fd", "bpf_event", "remote_addr", "remote_port", "body"] }

/-- `SocketTraceConnector::kTables`. -/
def kTables : List DataTableSchema := [kHTTPTable, kMySQLTable]

/-- The loop of `SourceConnector::TableNum` from index `i` on: the index at
which the loop breaks, or the size of the array when it runs to the end. -/
def TableNum_loop (key : DataTableSchema) : List DataTableSchema → Nat → Nat
  | [], i => i
  | table :: rest, i => if table.name = key.name then i else TableNum_loop key rest (i + 1)

/-- `SourceConnector::TableNum`: the index found by the loop; the
`COMPILE_TIME_ASSERT` rejects the call when the loop ran to the end. -/
def TableNum (tables : List DataTableSchema) (key : DataTableSchema) : Except Fault Nat :=
  if TableNum_loop key tables 0 ≠ tables.length then Except.ok (TableNum_loop key tables 0)
  else Except.error Fault.compile_time_assert

/-- `SocketTraceConnector::kHTTPTableNum`. -/
def kHTTPTableNum : Nat :=
  match TableNum kTables kHTTPTable with
  | Except.ok i => i
  | Except.error _ => kTables.length

/-- `SocketTraceConnector::kMySQLTableNum`. -/
def kMySQLTableNum : Nat :=
  match TableNum kTables kMySQLTable with
  | Except.ok i => i
  | Except.error _ => kTables.length

/-- `SocketTraceConnector::kHTTPPerfBufferNames`. -/
def kHTTPPerfBufferNames : List String :=
  ["socket_open_conns", "socket_http_events", "socket_close_conns"]

/-- `SocketTraceConnector::kMySQLPerfBufferNames`. -/
def kMySQLPerfBufferNames : List String :=
  ["socket_open_conns", "socket_mysql_events", "socket_close_conns"]

/-- `SocketTraceConnector::kHTTP2PerfBufferNames`. -/
def kHTTP2PerfBufferNames : List String :=
  ["socket_open_conns", "socket_http2_events", "socket_close_conns"]

/-- `SocketTraceConnector::kTablePerfBufferMap` (dimension 0: tables,
dimension 1: perf buffer names). -/
def kTablePerfBufferMap : List (List String) :=
  [kHTTPPerfBufferNames, kMySQLPerfBufferNames, kHTTP2PerfBufferNames]

/-- `SocketTraceConnector::ReadPerfBuffer`: the names of the perf buffers it
polls, in order. `opened name` tells whether `bpf_.get_perf_buffer(name)` is
non-null; the callbacks of a buffer run inside its `poll`. -/
def ReadPerfBuffer (opened : String → Bool) (table_num : Nat) : Except Fault (List String) :=
  match kTablePerfBufferMap[table_num]? with
  | none => Except.error Fault.index_out_of_range
  | some buffer_names => Except.ok (buffer_names.filter opened)

/-- `SocketTraceConnector::TransferStreamData`: the switch over the table
number. -/
def TransferStreamData (x : Externals) (c : SocketTraceConnector) (table_num : Nat)
    (record_batch : List HTTPRow) : Except Fault (SocketTraceConnector × List HTTPRow) :=
  if table_num = kHTTPTableNum then TransferHTTPStreams x c record_batch
  else if table_num = kMySQLTableNum then Except.ok (c, record_batch)
  else Except.error Fault.check_false

/-- What a tick does, in order: polls of perf buffers and the stream transfer. -/
inductive TickAction where
  | poll (buffer_name : String)
  | transferStreamData (table_num : Nat)
deriving DecidableEq, Repr

/-- `SocketTraceConnector::TransferDataImpl` (with a non-null record batch), as
the sequence of its actions: the `CHECK_LT` on the table number, the polls of
`ReadPerfBuffer`, then `TransferStreamData`. -/
def TransferDataImpl (opened : String → Bool) (table_num : Nat) :
    Except Fault (List TickAction) :=
  if ¬ table_num < kTables.length then Except.error Fault.check_table_num
  else
    match ReadPerfBuffer opened table_num with
    | Except.error e => Except.error e
    | Except.ok polled =>
      Except.ok (polled.map TickAction.poll ++ [TickAction.transferStreamData table_num])

/-- A status as returned by `Configure`. -/
inductive Status where
  | OK
  | Internal (msg : String)
deriving DecidableEq, Repr

/-- `SocketTraceConnector::Configure`. `update_res_code` is the code of the
result of `control_map_handle.update_value(protocol, config_mask)`. -/
def Configure (update_res_code : Int) (c : SocketTraceConnector) (protocol config_mask : Nat) :
    Except Fault (Status × SocketTraceConnector) :=
  if update_res_code ≠ 0 then Except.ok (Status.Internal "Failed to set control map", c)
  else if protocol < c.config_mask_.length then
    Except.ok (Status.OK, { c with config_mask_ := c.config_mask_.set protocol config_mask })
  else Except.error Fault.index_out_of_range

/-! ## HTTP/2 probes (`bcc_bpf/go_grpc.c`) -/

/-- `MAX_HEADER_COUNT`. -/
def MAX_HEADER_COUNT : Nat := 64

/-- `kFlagDataEndStream`. -/
def kFlagDataEndStream : Nat := 0x1

/-- `kFlagHeadersEndStream`. -/
def kFlagHeadersEndStream : Nat := 0x1

/-- The `end_stream` of the HEADERS probes (`probe_http2_operate_headers`,
`probe_http_http2serverConn_processHeaders`):
`const bool end_stream = flags & kFlagHeadersEndStream` for a `uint8_t flags`. -/
def headers_end_stream (flags : Nat) : Bool :=
  ((flags % 2 ^ 8) &&& kFlagHeadersEndStream) ≠ 0

/-- The `end_stream` of the DATA probes (`probe_http2_framer_check_frame_order`,
`probe_http_http2framer_check_frame_order`):
`const bool end_stream = flags & kFlagDataEndStream` for a `uint8_t flags`. -/
def data_end_stream (flags : Nat) : Bool :=
  ((flags % 2 ^ 8) &&& kFlagDataEndStream) ≠ 0

/-- A length-prefixed string of a header event (`event.name`, `event.value`). -/
structure header_field_t where
  size : Nat
  msg : List Nat
deriving DecidableEq, Repr

/-- The attributes of a header event (`event.attr`). -/
structure header_event_attr_t where
  probe_type : Nat
  type : Nat
  timestamp_ns : Nat
  conn_id : Nat
  stream_id : Nat
  end_stream : Bool
deriving DecidableEq, Repr

/-- A header event (`struct go_grpc_http2_header_event_t`). -/
structure go_grpc_http2_header_event_t where
  attr : header_event_attr_t
  name : header_field_t
  value : header_field_t
deriving DecidableEq, Repr

/-- What the probes take from the kernel and from headers that are not among
the sources: the current tgid, the clock, the connection lookup
`get_conn_info` (the connection id, `none` for `NULL`) and the length cap
`BPF_LEN_CAP(len, HEADER_FIELD_STR_SIZE)`. -/
structure BpfContext where
  tgid : Nat
  bpf_ktime_get_ns : Nat
  get_conn_info : Nat → Int → Option Nat
  len_cap : Nat → Nat

/-- `fill_header_field`: the name and the value of the header field (given as
the two Go strings read from it) are copied into the event, capped. -/
def fill_header_field (b : BpfContext) (event : go_grpc_http2_header_event_t)
    (field : List Nat × List Nat) : go_grpc_http2_header_event_t :=
  { event with
    name := { size := b.len_cap field.1.length, msg := field.1.take (b.len_cap field.1.length + 1) },
    value := { size := b.len_cap field.2.length,
               msg := field.2.take (b.len_cap field.2.length + 1) } }

/-- The unrolled loop of `submit_headers` from index `i` on, with `count`
iterations left: the event as the loop leaves it and the events submitted. -/
def submit_headers_loop (b : BpfContext) (fields : List (List Nat × List Nat)) :
    Nat → Nat → go_grpc_http2_header_event_t →
    go_grpc_http2_header_event_t × List go_grpc_http2_header_event_t
  | _, 0, event => (event, [])
  | i, count + 1, event =>
    match fields[i]? with
    | some field =>
      (( submit_headers_loop b fields (i + 1) count (fill_header_field b event field)).1,
        fill_header_field b event field ::
          (submit_headers_loop b fields (i + 1) count (fill_header_field b event field)).2)
    | none => submit_headers_loop b fields (i + 1) count event

/-- `submit_headers`: the events submitted to `go_grpc_header_events`, in order.
The header list `fields` is the Go slice, `fields.len` its length. -/
def submit_headers (b : BpfContext) (probe_type type : Nat) (fd : Int) (stream_id : Nat)
    (end_stream : Bool) (fields : List (List Nat × List Nat)) :
    List go_grpc_http2_header_event_t :=
  match b.get_conn_info b.tgid fd with
  | none => []
  | some conn_id =>
    let event : go_grpc_http2_header_event_t :=
      { attr := { probe_type := probe_type, type := type, timestamp_ns := b.bpf_ktime_get_ns,
                  conn_id := conn_id, stream_id := stream_id, end_stream := false },
        name := { size := 0, msg := [] },
        value := { size := 0, msg := [] } }
    let looped := submit_headers_loop b fields 0 MAX_HEADER_COUNT event
    if end_stream then
      looped.2 ++
        [{ looped.1 with
           name := { looped.1.name with size := 0 },
           value := { looped.1.value with size := 0 },
           attr := { looped.1.attr with end_stream := true } }]
    else looped.2

/-- A sample probe context: process 1, whose descriptor 5 is connection 7. -/
def sampleBpfContext : BpfContext :=
  { tgid := 1, bpf_ktime_get_ns := 100,
    get_conn_info := fun tgid fd => if tgid = 1 ∧ fd = 5 then some 7 else none,
    len_cap := fun len => min len 4 }

/-- A sample data event of process 1, connection 1, with the given protocol
tag, event type, sequence number and payload. -/
def sampleEventOf (protocol event_type seq_num : Nat) (bytes : List Nat) : socket_data_event_t :=
  { attr := { timestamp_ns := 0, tgid := 1, conn_id := 1, event_type := event_type,
              protocol := protocol, seq_num := seq_num, msg_size := bytes.length },
    msg := bytes }

/-! ## Lemmas on the map model -/

theorem StdMap.WF_cons {V : Type} {k : Nat} {v : V} {rest : StdMap V}
    (h : StdMap.WF ((k, v) :: rest)) :
    StdMap.WF rest ∧ k < 2 ^ 64 ∧ ∀ k1 ∈ StdMap.keys rest, k < k1 := by
  obtain ⟨hs, hb⟩ := h
  simp only [StdMap.keys, List.map_cons, List.pairwise_cons, List.mem_cons] at hs hb
  refine ⟨⟨hs.2, fun k1 hk1 => hb k1 (Or.inr hk1)⟩, hb k (Or.inl rfl), hs.1⟩

theorem StdMap.find_eq_none_of_lt {V : Type} (m : StdMap V) (key : Nat)
    (h : ∀ k1 ∈ StdMap.keys m, key < k1) : StdMap.find m key = none := by
  induction m with
  | nil => rfl
  | cons kv rest ih =>
    obtain ⟨k, v⟩ := kv
    have hk : key < k := h k (by simp [StdMap.keys])
    have hne : ¬ k = key := by omega
    simp only [StdMap.find, hne, if_false]
    exact ih (fun k1 hk1 => h k1 (by simp only [StdMap.keys, List.map_cons, List.mem_cons]; exact Or.inr hk1))

theorem StdMap.find_emplace_of_ne {V : Type} (m : StdMap V) (key : Nat) (val : V) (key1 : Nat)
    (h : key1 ≠ key) : StdMap.find (StdMap.emplace m key val) key1 = StdMap.find m key1 := by
  induction m with
  | nil =>
    have h1 : ¬ key = key1 := fun e => h e.symm
    simp [StdMap.emplace, StdMap.find, h1]
  | cons kv rest ih =>
    obtain ⟨k, v⟩ := kv
    have h1 : ¬ key = key1 := fun e => h e.symm
    unfold StdMap.emplace
    split
    · simp [StdMap.find, h1]
    · split
      · rfl
      · by_cases hk : k = key1
        · simp [StdMap.find, hk]
        · simp [StdMap.find, hk, ih]

theorem StdMap.emplace_of_present {V : Type} (m : StdMap V) (key : Nat) (val : V)
    (hwf : StdMap.WF m) (h : (StdMap.find m key).isSome = true) :
    StdMap.emplace m key val = m := by
  induction m with
  | nil => simp [StdMap.find] at h
  | cons kv rest ih =>
    obtain ⟨k, v⟩ := kv
    obtain ⟨hrest, _, hlt⟩ := StdMap.WF_cons hwf
    unfold StdMap.emplace
    split
    · rename_i hk
      have hne : ¬ k = key := by omega
      have hnone : StdMap.find rest key = none :=
        StdMap.find_eq_none_of_lt rest key (fun k1 hk1 => Nat.lt_trans hk (hlt k1 hk1))
      simp [StdMap.find, hne, hnone] at h
    · split
      · rfl
      · rename_i hk1 hk2
        have hne : ¬ k = key := fun e => hk2 e.symm
        simp only [StdMap.find, hne, if_false] at h
        rw [ih hrest h]

theorem StdMap.find_emplace_of_absent {V : Type} (m : StdMap V) (key : Nat) (val : V)
    (h : StdMap.find m key = none) :
    StdMap.find (StdMap.emplace m key val) key = some val := by
  induction m with
  | nil => simp [StdMap.emplace, StdMap.find]
  | cons kv rest ih =>
    obtain ⟨k, v⟩ := kv
    by_cases hk : k = key
    · simp [StdMap.find, hk] at h
    · simp only [StdMap.find, hk, if_false] at h
      unfold StdMap.emplace
      split
      · simp [StdMap.find]
      · split
        · rename_i h2
          exact absurd h2.symm hk
        · simp [StdMap.find, hk, ih h]

theorem StdMap.modify_id {V : Type} (m : StdMap V) (key : Nat) (f : V → V)
    (h : ∀ v, StdMap.find m key = some v → f v = v) : StdMap.modify m key f = m := by
  induction m with
  | nil => rfl
  | cons kv rest ih =>
    obtain ⟨k, v⟩ := kv
    by_cases hk : k = key
    · have := h v (by simp [StdMap.find, hk])
      simp [StdMap.modify, hk, this]
    · have hrest : StdMap.modify rest key f = rest :=
        ih (fun v1 hv1 => h v1 (by simp [StdMap.find, hk, hv1]))
      simp [StdMap.modify, hk, hrest]

theorem setStreams_streamsOf (c : SocketTraceConnector) (kind : StreamKind) :
    setStreams c kind (streamsOf c kind) = c := by
  cases kind <;> rfl

/-! ## Stream key -/

/-- C9: for 32-bit `tgid` and `conn_id`, `GetStreamId` is `tgid * 2^32 + conn_id`
(a 64-bit value with the process id in the high and the connection id in the
low 32 bits), and two pairs with the same stream key are equal. -/
theorem GetStreamId_value_and_injective (tgid conn_id : Nat)
    (ht : tgid < 2 ^ 32) (hc : conn_id < 2 ^ 32) :
    GetStreamId tgid conn_id = tgid * 2 ^ 32 + conn_id ∧
    GetStreamId tgid conn_id < 2 ^ 64 ∧
    GetStreamId tgid conn_id / 2 ^ 32 = tgid ∧
    GetStreamId tgid conn_id % 2 ^ 32 = conn_id ∧
    ∀ tgid1 conn_id1, tgid1 < 2 ^ 32 → conn_id1 < 2 ^ 32 →
      GetStreamId tgid1 conn_id1 = GetStreamId tgid conn_id →
      tgid1 = tgid ∧ conn_id1 = conn_id := by
  have key : ∀ t c : Nat, t < 2 ^ 32 → c < 2 ^ 32 → GetStreamId t c = t * 2 ^ 32 + c := by
    intro t c h1 h2
    unfold GetStreamId
    rw [Nat.mod_eq_of_lt h1, Nat.mod_eq_of_lt h2, Nat.shiftLeft_eq]
    have h3 : t * 2 ^ 32 < 2 ^ 64 := by omega
    rw [Nat.mod_eq_of_lt h3, Nat.mul_comm t (2 ^ 32), ← Nat.mul_add_lt_is_or h2]
  refine ⟨key _ _ ht hc, ?_, ?_, ?_, ?_⟩
  · rw [key _ _ ht hc]; omega
  · rw [key _ _ ht hc]; omega
  · rw [key _ _ ht hc]; omega
  · intro tgid1 conn_id1 h1 h2 heq
    rw [key _ _ ht hc, key _ _ h1 h2] at heq
    omega

/-- Witness of C9 at process 7, connection 9. -/
theorem GetStreamId_value_and_injective_witness :
    GetStreamId 7 9 = 7 * 2 ^ 32 + 9 ∧
    GetStreamId 7 9 < 2 ^ 64 ∧
    GetStreamId 7 9 / 2 ^ 32 = 7 ∧
    GetStreamId 7 9 % 2 ^ 32 = 9 ∧
    ∀ tgid1 conn_id1, tgid1 < 2 ^ 32 → conn_id1 < 2 ^ 32 →
      GetStreamId tgid1 conn_id1 = GetStreamId 7 9 →
      tgid1 = 7 ∧ conn_id1 = 9 :=
  GetStreamId_value_and_injective 7 9 (by norm_num) (by norm_num)

/-! ## Connection registry -/

/-- C10, as stated, fails: with a record for the stream key already in the
registry, `OpenConn` of a new record with the same key leaves the stale record
in place, and a lookup returns the stale record, not the new one. -/
theorem OpenConn_keeps_stale_entry :
    GetConn (OpenConn (sampleConnector [(GetStreamId 1 1, sampleConn 5)]) (sampleConn 6))
        (sampleEvent 3 0 []) = some (sampleConn 5) ∧
      sampleConn 5 ≠ sampleConn 6 := by
  decide

/-- C10, amended: after `OpenConn(conn_info)` a lookup of conn_info's stream key
returns `conn_info` when no record was present for that key and the record
already present otherwise (`emplace` does not overwrite); lookups of every
other stream key are unchanged. -/
theorem OpenConn_lookup (c : SocketTraceConnector) (conn_info : conn_info_t)
    (event : socket_data_event_t) (hwf : StdMap.WF c.connections_) :
    (GetStreamId event.attr.tgid event.attr.conn_id =
        GetStreamId conn_info.tgid conn_info.conn_id →
      GetConn (OpenConn c conn_info) event =
        match GetConn c event with
        | some stale => some stale
        | none => some conn_info) ∧
    (GetStreamId event.attr.tgid event.attr.conn_id ≠
        GetStreamId conn_info.tgid conn_info.conn_id →
      GetConn (OpenConn c conn_info) event = GetConn c event) := by
  constructor
  · intro hkey
    simp only [GetConn, OpenConn, hkey]
    cases hf : StdMap.find c.connections_ (GetStreamId conn_info.tgid conn_info.conn_id) with
    | none => exact StdMap.find_emplace_of_absent _ _ _ hf
    | some stale =>
      rw [StdMap.emplace_of_present _ _ _ hwf (by simp [hf]), hf]
  · intro hkey
    simp only [GetConn, OpenConn]
    exact StdMap.find_emplace_of_ne _ _ _ _ hkey

/-- Witness of the amended C10: a registry holding a record for process 2, and
the open event of process 1, connection 1. -/
theorem OpenConn_lookup_witness :
    StdMap.WF (sampleConnector [(GetStreamId 2 1, sampleConn 5)]).connections_ ∧
    GetConn (OpenConn (sampleConnector [(GetStreamId 2 1, sampleConn 5)]) (sampleConn 6))
        (sampleEvent 3 0 []) = some (sampleConn 6) := by
  have hwf : StdMap.WF (sampleConnector [(GetStreamId 2 1, sampleConn 5)]).connections_ := by
    constructor
    · simp [sampleConnector, StdMap.keys]
    · intro k hk
      simp only [sampleConnector, StdMap.keys, List.map_cons, List.map_nil,
        List.mem_singleton] at hk
      subst hk
      decide
  exact ⟨hwf, (OpenConn_lookup _ (sampleConn 6) (sampleEvent 3 0 []) hwf).1 rfl⟩

/-! ## Reorder buffer -/

/-- C8, as stated, fails: admitting a second event with a sequence number that
the send map already holds leaves the first event stored under that number. -/
theorem AppendToStream_duplicate_not_overwritten :
    (StdMap.find
        (AppendToStream (sampleExternals fourByteParser)
          (AppendToStream (sampleExternals fourByteParser)
            (sampleConnector [(GetStreamId 1 1, sampleConn 5)])
            StreamKind.kHTTPStream (sampleEvent 1 0 [1, 2]))
          StreamKind.kHTTPStream (sampleEvent 1 0 [7, 8, 9])).http_streams_
        (GetStreamId 1 1)).map (fun s => StdMap.find s.send_events 0) =
      some (some (sampleEvent 1 0 [1, 2])) ∧
    sampleEvent 1 0 [1, 2] ≠ sampleEvent 1 0 [7, 8, 9] := by
  decide

/-- C8, amended: for an existing stream and a data event whose sequence number
is already present in the map of the event's direction, `AppendToStream` leaves
the stored entry as it is (the first event wins, the new one is discarded): the
connector, and with it the map and its key set, is unchanged. -/
theorem AppendToStream_duplicate_keeps_first (x : Externals) (c : SocketTraceConnector)
    (kind : StreamKind) (event : socket_data_event_t) (stream : EventStream)
    (hstream : StdMap.find (streamsOf c kind)
      (GetStreamId event.attr.tgid event.attr.conn_id) = some stream)
    (hsend : StdMap.WF stream.send_events) (hrecv : StdMap.WF stream.recv_events)
    (hdup : match EventStreamDirection x event.attr.event_type with
      | StreamDirection.kSend =>
        (StdMap.find stream.send_events event.attr.seq_num).isSome = true
      | StreamDirection.kRecv =>
        (StdMap.find stream.recv_events event.attr.seq_num).isSome = true
      | StreamDirection.kUnknown => False) :
    AppendToStream x c kind event = c := by
  have hins : AppendToStream_insert x stream event = stream := by
    unfold AppendToStream_insert
    cases hd : EventStreamDirection x event.attr.event_type with
    | kUnknown => rfl
    | kSend =>
      rw [hd] at hdup
      simp only [StdMap.emplace_of_present _ _ _ hsend hdup]
    | kRecv =>
      rw [hd] at hdup
      simp only [StdMap.emplace_of_present _ _ _ hrecv hdup]
  unfold AppendToStream
  simp only [hstream]
  rw [StdMap.modify_id, setStreams_streamsOf]
  intro v hv
  rw [hstream] at hv
  cases hv
  exact hins

/-- Witness of the amended C8: a stream holding a write event under sequence
number 0, and a second write event with sequence number 0. -/
theorem AppendToStream_duplicate_keeps_first_witness :
    AppendToStream (sampleExternals fourByteParser)
        (AppendToStream (sampleExternals fourByteParser)
          (sampleConnector [(GetStreamId 1 1, sampleConn 5)])
          StreamKind.kHTTPStream (sampleEvent 1 0 [1, 2]))
        StreamKind.kHTTPStream (sampleEvent 1 0 [7, 8, 9]) =
      AppendToStream (sampleExternals fourByteParser)
        (sampleConnector [(GetStreamId 1 1, sampleConn 5)])
        StreamKind.kHTTPStream (sampleEvent 1 0 [1, 2]) :=
  AppendToStream_duplicate_keeps_first (sampleExternals fourByteParser) _
    StreamKind.kHTTPStream (sampleEvent 1 0 [7, 8, 9])
    { conn := { timestamp_ns := 0, tgid := 1, fd := 5, remote_addr := "-", remote_port := -1 },
      protocol := 1, recv_events := [], send_events := [(0, sampleEvent 1 0 [1, 2])],
      recv_offset := 0, send_offset := 0 }
    (by decide)
    (by constructor
        · simp [StdMap.keys]
        · intro k hk
          simp only [StdMap.keys, List.map_cons, List.map_nil, List.mem_singleton] at hk
          subst hk
          norm_num)
    (by constructor
        · simp [StdMap.keys]
        · intro k hk
          simp [StdMap.keys] at hk)
    (by show (StdMap.find [(0, sampleEvent 1 0 [1, 2])] 0).isSome = true
        rfl)

/-! ## The contiguous-run extractor -/

/-- The loop stops, submitting nothing, at an entry whose key is not the next
sequence number. -/
theorem ParseEventStream_loop_gap (x : Externals) (k : Nat) (e : socket_data_event_t)
    (rest : List (Nat × socket_data_event_t)) (next offset : Nat) (h : k ≠ next) :
    ParseEventStream_loop x ((k, e) :: rest) next offset = Except.ok ([], offset) := by
  simp [ParseEventStream_loop, h]

/-- One iteration of the loop with offset zero: the whole payload is submitted. -/
theorem ParseEventStream_loop_whole (x : Externals) (k : Nat) (e : socket_data_event_t)
    (rest : List (Nat × socket_data_event_t)) (msgs : List (List Nat × Nat)) (off : Nat)
    (h : ParseEventStream_loop x rest ((k + 1) % 2 ^ 64) 0 = Except.ok (msgs, off)) :
    ParseEventStream_loop x ((k, e) :: rest) k 0 =
      Except.ok ((payload e, (e.attr.timestamp_ns + x.ClockRealTimeOffset) % 2 ^ 64) :: msgs,
        off) := by
  rw [ParseEventStream_loop]
  simp only [ne_eq, not_true_eq_false, if_false, h]

/-- One iteration of the loop with a non-zero offset inside the event: the
payload from the offset on is submitted and the offset is reset. -/
theorem ParseEventStream_loop_offset (x : Externals) (k : Nat) (e : socket_data_event_t)
    (rest : List (Nat × socket_data_event_t)) (offset : Nat) (msgs : List (List Nat × Nat))
    (off : Nat) (h0 : offset ≠ 0) (hlt : offset < e.attr.msg_size)
    (h : ParseEventStream_loop x rest ((k + 1) % 2 ^ 64) 0 = Except.ok (msgs, off)) :
    ParseEventStream_loop x ((k, e) :: rest) k offset =
      Except.ok (((payload e).drop offset,
        (e.attr.timestamp_ns + x.ClockRealTimeOffset) % 2 ^ 64) :: msgs, off) := by
  have htake : List.take (e.attr.msg_size - offset) (List.drop offset (payload e)) =
      List.drop offset (payload e) := by
    apply List.take_of_length_le
    simp only [payload, List.length_drop, List.length_take]
    omega
  rw [ParseEventStream_loop]
  simp only [ne_eq, not_true_eq_false, if_false, h0, not_false_eq_true, if_true, hlt, h, htake]

/-- The `CHECK` of the loop: a non-zero offset that is not inside the event
aborts. -/
theorem ParseEventStream_loop_check (x : Externals) (k : Nat) (e : socket_data_event_t)
    (rest : List (Nat × socket_data_event_t)) (offset : Nat)
    (h0 : offset ≠ 0) (hge : ¬ offset < e.attr.msg_size) :
    ParseEventStream_loop x ((k, e) :: rest) k offset =
      Except.error Fault.check_offset_lt_msg_size := by
  rw [ParseEventStream_loop]
  simp only [ne_eq, not_true_eq_false, if_false, h0, not_false_eq_true, if_true, hge]

/-- Once the offset is zero the loop cannot fail: it returns slices, one for
each entry it visited, each no longer than the `msg_size` of its event, and
leaves the offset zero. -/
theorem ParseEventStream_loop_zero (x : Externals) (l : List (Nat × socket_data_event_t)) :
    ∀ next : Nat, ∃ msgs, ParseEventStream_loop x l next 0 = Except.ok (msgs, 0) ∧
      msgs.length ≤ l.length ∧
      ∀ i, ((msgs.map Prod.fst).getD i []).length ≤
        ((l.map (fun kv => kv.2.attr.msg_size)).getD i 0) := by
  induction l with
  | nil =>
    intro next
    exact ⟨[], rfl, Nat.le_refl _, fun i => by simp⟩
  | cons kv rest ih =>
    intro next
    obtain ⟨k, e⟩ := kv
    by_cases hk : k = next
    · subst hk
      obtain ⟨msgs, hm, hlen, hsz⟩ := ih ((k + 1) % 2 ^ 64)
      refine ⟨(payload e, (e.attr.timestamp_ns + x.ClockRealTimeOffset) % 2 ^ 64) :: msgs,
        ParseEventStream_loop_whole x k e rest msgs 0 hm, ?_, ?_⟩
      · simp only [List.length_cons]; omega
      · intro i
        cases i with
        | zero =>
          simp only [List.map_cons, List.getD_cons_zero, payload, List.length_take]
          omega
        | succ j =>
          simpa using hsz j
    · exact ⟨[], ParseEventStream_loop_gap x k e rest next 0 hk, Nat.zero_le _,
        fun i => by simp⟩

/-- The first iteration of the loop on a non-empty map whose offset is zero or
inside the head event: the head payload is submitted from the offset on, and the
loop goes on with offset zero. -/
theorem ParseEventStream_loop_head (x : Externals) (first : Nat) (e0 : socket_data_event_t)
    (rest : List (Nat × socket_data_event_t)) (offset : Nat)
    (hoff : offset = 0 ∨ offset < e0.attr.msg_size) :
    ∃ msgs, ParseEventStream_loop x rest ((first + 1) % 2 ^ 64) 0 = Except.ok (msgs, 0) ∧
      ParseEventStream_loop x ((first, e0) :: rest) first offset =
        Except.ok (((payload e0).drop offset,
          (e0.attr.timestamp_ns + x.ClockRealTimeOffset) % 2 ^ 64) :: msgs, 0) := by
  obtain ⟨msgs, hm, -, -⟩ := ParseEventStream_loop_zero x rest ((first + 1) % 2 ^ 64)
  refine ⟨msgs, hm, ?_⟩
  by_cases h0 : offset = 0
  · subst h0
    exact ParseEventStream_loop_whole x first e0 rest msgs 0 hm
  · have hlt : offset < e0.attr.msg_size := by
      rcases hoff with h | h
      · exact absurd h h0
      · exact h
    exact ParseEventStream_loop_offset x first e0 rest offset msgs 0 h0 hlt hm

/-- With offset zero, on entries in ascending key order whose keys are at least
`n`, the loop started at `next_seq_num = n` submits the whole payloads of
exactly the longest run of entries with keys `n, n + 1, ...`. -/
theorem ParseEventStream_loop_run (x : Externals) (l : List (Nat × socket_data_event_t)) :
    ∀ n : Nat, (StdMap.keys l).Pairwise (fun a b => a < b) →
      (∀ k ∈ StdMap.keys l, n ≤ k ∧ k < 2 ^ 64) →
      ∃ r, r ≤ l.length ∧ (∀ i, i < r → (StdMap.keys l)[i]? = some (n + i)) ∧
        (StdMap.keys l)[r]? ≠ some (n + r) ∧
        ParseEventStream_loop x l (n % 2 ^ 64) 0 =
          Except.ok ((l.take r).map (fun kv =>
            (payload kv.2, (kv.2.attr.timestamp_ns + x.ClockRealTimeOffset) % 2 ^ 64)), 0) := by
  induction l with
  | nil =>
    intro n _ _
    exact ⟨0, Nat.le_refl _, fun i hi => absurd hi (Nat.not_lt_zero i), by simp [StdMap.keys], rfl⟩
  | cons kv rest ih =>
    intro n hs hb
    obtain ⟨k, e⟩ := kv
    simp only [StdMap.keys, List.map_cons, List.pairwise_cons] at hs
    have hk := hb k (by simp [StdMap.keys])
    have hmod : n % 2 ^ 64 = n := Nat.mod_eq_of_lt (by omega)
    by_cases hkn : k = n
    · subst hkn
      have hb1 : ∀ k1 ∈ StdMap.keys rest, k + 1 ≤ k1 ∧ k1 < 2 ^ 64 := by
        intro k1 hk1
        have h1 := hs.1 k1 hk1
        have h2 := hb k1 (by simp only [StdMap.keys, List.map_cons, List.mem_cons]; exact Or.inr hk1)
        omega
      obtain ⟨r, hr, hrun, hstop, hloop⟩ := ih (k + 1) hs.2 hb1
      refine ⟨r + 1, by simp only [List.length_cons]; omega, ?_, ?_, ?_⟩
      · intro i hi
        cases i with
        | zero => simp [StdMap.keys]
        | succ j =>
          have := hrun j (by omega)
          simp only [StdMap.keys] at this
          simp only [StdMap.keys, List.map_cons, List.getElem?_cons_succ, this]
          congr 1
          omega
      · simp only [StdMap.keys] at hstop
        simp only [StdMap.keys, List.map_cons, List.getElem?_cons_succ]
        intro h
        apply hstop
        rw [h]
        congr 1
        omega
      · rw [hmod]
        exact ParseEventStream_loop_whole x k e rest _ 0 hloop
    · refine ⟨0, Nat.zero_le _, fun i hi => absurd hi (Nat.not_lt_zero i), ?_, ?_⟩
      · simp [StdMap.keys, hkn]
      · rw [hmod]
        exact ParseEventStream_loop_gap x k e rest n 0 hkn

/-- The result of `ParseEventStream` on a non-empty map once the loop has
returned with offset zero, for a parser that counts no more slices than the
map has entries. -/
theorem ParseEventStream_of_loop (x : Externals) (type : TrafficMessageType)
    (first : Nat) (e0 : socket_data_event_t) (rest : List (Nat × socket_data_event_t))
    (offset : Nat) (msgs : List (List Nat × Nat))
    (hloop : ParseEventStream_loop x ((first, e0) :: rest) first offset = Except.ok (msgs, 0))
    (hn : (x.ParseMessages type msgs).end_position.seq_num ≤ ((first, e0) :: rest).length) :
    ParseEventStream x type ((first, e0) :: rest) offset =
      Except.ok
        { submitted := msgs,
          events := ((first, e0) :: rest).drop (x.ParseMessages type msgs).end_position.seq_num,
          offset := (x.ParseMessages type msgs).end_position.offset,
          messages := (x.ParseMessages type msgs).messages } := by
  unfold ParseEventStream
  simp only [hloop]
  have h2 : ¬ ((first, e0) :: rest).length < (x.ParseMessages type msgs).end_position.seq_num := by
    omega
  rw [if_neg (by simp), if_neg h2]

/-- The sample parser counts no more slices than it is given and stops inside
the slice after them: it honours the end-position contract on every input. -/
theorem positionAfter_honours (slices : List (List Nat × Nat)) :
    ∀ consumed, consumed ≤ ((slices.map Prod.fst).flatten).length →
      HonoursEndPosition slices (positionAfter slices consumed) := by
  induction slices with
  | nil =>
    intro consumed h
    simp only [List.map_nil, List.flatten_nil, List.length_nil, Nat.le_zero] at h
    subst h
    exact ⟨Nat.le_refl _, Or.inl rfl⟩
  | cons s rest ih =>
    intro consumed h
    simp only [List.map_cons, List.flatten_cons, List.length_append] at h
    unfold positionAfter
    split
    · rename_i hle
      obtain ⟨h1, h2⟩ := ih (consumed - s.1.length) (by omega)
      refine ⟨by simp only [List.length_cons]; omega, ?_⟩
      rcases h2 with h2 | h2
      · exact Or.inl h2
      · exact Or.inr (by simpa using h2)
    · rename_i hlt
      exact ⟨Nat.zero_le _, Or.inr (by simp only [List.map_cons, List.getD_cons_zero]; omega)⟩

theorem fourByteParser_honours (type : TrafficMessageType) (slices : List (List Nat × Nat)) :
    HonoursEndPosition slices (fourByteParser type slices).end_position :=
  positionAfter_honours slices _ (Nat.sub_le _ _)

/-- C1: for a non-empty event map and an offset smaller than the head event's
payload size, the slices `ParseEventStream` hands to the parser are, in map
order (ascending sequence numbers), the payloads of the longest run of entries
with consecutive sequence numbers starting at the smallest key: the head
payload without its first `offset` bytes, then the whole payloads of the next
`r` entries, whose keys are `first + 1, ..., first + r`, where the entry after
them (if any) does not have key `first + r + 1`; nothing at or after that gap is
submitted. -/
theorem ParseEventStream_submits_contiguous_run (x : Externals) (type : TrafficMessageType)
    (first : Nat) (e0 : socket_data_event_t) (rest : List (Nat × socket_data_event_t))
    (offset : Nat)
    (hwf : StdMap.WF ((first, e0) :: rest))
    (hoff : offset < e0.attr.msg_size)
    (hpar : ∀ slices, (x.ParseMessages type slices).end_position.seq_num ≤ slices.length) :
    ∃ r out, ParseEventStream x type ((first, e0) :: rest) offset = Except.ok out ∧
      r ≤ rest.length ∧
      (∀ i, i < r → (StdMap.keys rest)[i]? = some (first + 1 + i)) ∧
      (StdMap.keys rest)[r]? ≠ some (first + 1 + r) ∧
      out.submitted.map Prod.fst =
        (payload e0).drop offset :: (rest.take r).map (fun kv => payload kv.2) := by
  obtain ⟨hrest, hfirst, hlt⟩ := StdMap.WF_cons hwf
  have hb : ∀ k ∈ StdMap.keys rest, first + 1 ≤ k ∧ k < 2 ^ 64 :=
    fun k hk => ⟨hlt k hk, hrest.2 k hk⟩
  obtain ⟨r, hr, hrun, hstop, hloop⟩ := ParseEventStream_loop_run x rest (first + 1) hrest.1 hb
  obtain ⟨msgs, hm, hhead⟩ := ParseEventStream_loop_head x first e0 rest offset (Or.inr hoff)
  rw [hloop] at hm
  have hmsgs := (Prod.mk.inj (Except.ok.inj hm)).1
  have hlen : msgs.length ≤ rest.length := by
    rw [← hmsgs, List.length_map, List.length_take]
    exact Nat.min_le_right _ _
  refine ⟨r, _, ParseEventStream_of_loop x type first e0 rest offset _ hhead ?_, hr, hrun,
    hstop, ?_⟩
  · have := hpar (((payload e0).drop offset,
      (e0.attr.timestamp_ns + x.ClockRealTimeOffset) % 2 ^ 64) :: msgs)
    simp only [List.length_cons] at this ⊢
    omega
  · simp only [List.map_cons, ← hmsgs, List.map_map]
    rfl

/-- Witness of C1: the map with keys 5, 6, 8 and offset 1; the run is 5, 6. -/
theorem ParseEventStream_submits_contiguous_run_witness :
    ∃ r out, ParseEventStream (sampleExternals fourByteParser)
        TrafficMessageType.kMessageTypeResponses
        ((5, sampleEvent 3 5 [1, 2, 3]) ::
          [(6, sampleEvent 3 6 [4, 5, 6]), (8, sampleEvent 3 8 [7])]) 1 = Except.ok out ∧
      r ≤ [(6, sampleEvent 3 6 [4, 5, 6]), (8, sampleEvent 3 8 [7])].length ∧
      (∀ i, i < r → (StdMap.keys [(6, sampleEvent 3 6 [4, 5, 6]),
        (8, sampleEvent 3 8 [7])])[i]? = some (5 + 1 + i)) ∧
      (StdMap.keys [(6, sampleEvent 3 6 [4, 5, 6]), (8, sampleEvent 3 8 [7])])[r]? ≠
        some (5 + 1 + r) ∧
      out.submitted.map Prod.fst =
        (payload (sampleEvent 3 5 [1, 2, 3])).drop 1 ::
          ([(6, sampleEvent 3 6 [4, 5, 6]), (8, sampleEvent 3 8 [7])].take r).map
            (fun kv => payload kv.2) :=
  ParseEventStream_submits_contiguous_run (sampleExternals fourByteParser)
    TrafficMessageType.kMessageTypeResponses 5 (sampleEvent 3 5 [1, 2, 3])
    [(6, sampleEvent 3 6 [4, 5, 6]), (8, sampleEvent 3 8 [7])] 1
    (by decide) (by decide)
    (fun slices =>
      (fourByteParser_honours TrafficMessageType.kMessageTypeResponses slices).1)

/-- C2, as stated for every event map, fails: with an offset that is not inside
the head event the `CHECK` of the loop aborts the call, so nothing is erased
and no offset is set. -/
theorem ParseEventStream_aborts_on_offset_beyond_head :
    ParseEventStream (sampleExternals fourByteParser) TrafficMessageType.kMessageTypeResponses
      [(0, sampleEvent 3 0 [1, 2, 3])] 5 = Except.error Fault.check_offset_lt_msg_size := by
  rfl

/-- C2, amended: for every non-empty event map whose offset is zero or smaller
than the head event's payload size, and a parser whose end position `(n, b)`
counts no more slices than it was given, `ParseEventStream` returns; it leaves
the map without its `n` smallest-keyed entries (the others unchanged), sets the
offset to `b` and returns the parser's messages in the parser's order. The
erased entries are among those submitted. -/
theorem ParseEventStream_erases_consumed (x : Externals) (type : TrafficMessageType)
    (first : Nat) (e0 : socket_data_event_t) (rest : List (Nat × socket_data_event_t))
    (offset : Nat)
    (hoff : offset = 0 ∨ offset < e0.attr.msg_size)
    (hpar : ∀ slices, (x.ParseMessages type slices).end_position.seq_num ≤ slices.length) :
    ∃ out, ParseEventStream x type ((first, e0) :: rest) offset = Except.ok out ∧
      out.events =
        ((first, e0) :: rest).drop (x.ParseMessages type out.submitted).end_position.seq_num ∧
      out.offset = (x.ParseMessages type out.submitted).end_position.offset ∧
      out.messages = (x.ParseMessages type out.submitted).messages ∧
      (x.ParseMessages type out.submitted).end_position.seq_num ≤ out.submitted.length ∧
      out.submitted.length ≤ ((first, e0) :: rest).length := by
  obtain ⟨msgs, hm, hhead⟩ := ParseEventStream_loop_head x first e0 rest offset hoff
  obtain ⟨msgs1, hm1, hlen, -⟩ := ParseEventStream_loop_zero x rest ((first + 1) % 2 ^ 64)
  rw [hm1] at hm
  have hmsgs := (Prod.mk.inj (Except.ok.inj hm)).1
  subst hmsgs
  have hsub : (((payload e0).drop offset,
      (e0.attr.timestamp_ns + x.ClockRealTimeOffset) % 2 ^ 64) :: msgs1).length ≤
      ((first, e0) :: rest).length := by
    simp only [List.length_cons]; omega
  exact ⟨_, ParseEventStream_of_loop x type first e0 rest offset _ hhead
    (Nat.le_trans (hpar _) hsub), rfl, rfl, rfl, hpar _, hsub⟩

/-- Witness of the amended C2: two contiguous events, offset 1; the sample
parser consumes the first event whole and one byte of the second. -/
theorem ParseEventStream_erases_consumed_witness :
    ∃ out, ParseEventStream (sampleExternals fourByteParser)
        TrafficMessageType.kMessageTypeResponses
        ((0, sampleEvent 3 0 [1, 2, 3, 4, 5]) :: [(1, sampleEvent 3 1 [6, 7])]) 1 =
          Except.ok out ∧
      out.events = ((0, sampleEvent 3 0 [1, 2, 3, 4, 5]) :: [(1, sampleEvent 3 1 [6, 7])]).drop
        ((sampleExternals fourByteParser).ParseMessages TrafficMessageType.kMessageTypeResponses
          out.submitted).end_position.seq_num ∧
      out.offset = ((sampleExternals fourByteParser).ParseMessages
        TrafficMessageType.kMessageTypeResponses out.submitted).end_position.offset ∧
      out.messages = ((sampleExternals fourByteParser).ParseMessages
        TrafficMessageType.kMessageTypeResponses out.submitted).messages ∧
      ((sampleExternals fourByteParser).ParseMessages TrafficMessageType.kMessageTypeResponses
        out.submitted).end_position.seq_num ≤ out.submitted.length ∧
      out.submitted.length ≤
        ((0, sampleEvent 3 0 [1, 2, 3, 4, 5]) :: [(1, sampleEvent 3 1 [6, 7])]).length :=
  ParseEventStream_erases_consumed (sampleExternals fourByteParser)
    TrafficMessageType.kMessageTypeResponses 0 (sampleEvent 3 0 [1, 2, 3, 4, 5])
    [(1, sampleEvent 3 1 [6, 7])] 1 (Or.inr (by decide))
    (fun slices =>
      (fourByteParser_honours TrafficMessageType.kMessageTypeResponses slices).1)

/-- C6, the code at the failing input: on an empty map `ParseEventStream` reads
`events->begin()->first`, the key of the end iterator, before anything else;
and a stream that holds only a write event has an empty response direction on
the requestor side, so the transfer makes that call. -/
theorem ParseEventStream_reads_first_key_of_empty_map :
    (∀ (x : Externals) (type : TrafficMessageType) (offset : Nat),
      ParseEventStream x type [] offset = Except.error Fault.begin_of_empty_map) ∧
    ((AcceptEvent (sampleExternals fourByteParser)
        (sampleConnector [(GetStreamId 1 1, sampleConn 5)])
        (sampleEvent 1 0 [1, 2, 3, 4])).http_streams_.map (fun kv => kv.2.recv_events) = [[]]) ∧
    TransferHTTPStreams (sampleExternals fourByteParser)
      (AcceptEvent (sampleExternals fourByteParser)
        (sampleConnector [(GetStreamId 1 1, sampleConn 5)])
        (sampleEvent 1 0 [1, 2, 3, 4])) [] = Except.error Fault.begin_of_empty_map := by
  refine ⟨fun _ _ _ => rfl, by decide, rfl⟩

/-- C3, the code at the failing input: one event of 10 bytes, starting offset 1.
The sample parser is given the 9 unconsumed bytes and consumes `K = 8` of them,
within the head event. No event is erased and the new offset is 8, so erased
sizes plus new offset is 8, not the starting offset plus `K` = 9. -/
theorem ParseEventStream_loses_starting_offset :
    ∃ out, ParseEventStream (sampleExternals fourByteParser)
        TrafficMessageType.kMessageTypeResponses
        [(0, sampleEvent 3 0 [1, 2, 3, 4, 5, 6, 7, 8, 9, 10])] 1 = Except.ok out ∧
      out.submitted = [([2, 3, 4, 5, 6, 7, 8, 9, 10], 0)] ∧
      HonoursEndPosition out.submitted
        (fourByteParser TrafficMessageType.kMessageTypeResponses out.submitted).end_position ∧
      bytesConsumed out.submitted
        (fourByteParser TrafficMessageType.kMessageTypeResponses out.submitted).end_position = 8 ∧
      out.events = [(0, sampleEvent 3 0 [1, 2, 3, 4, 5, 6, 7, 8, 9, 10])] ∧
      erasedSize [(0, sampleEvent 3 0 [1, 2, 3, 4, 5, 6, 7, 8, 9, 10])]
        (fourByteParser TrafficMessageType.kMessageTypeResponses
          out.submitted).end_position.seq_num + out.offset = 8 ∧
      out.offset ≠ 1 + 8 :=
  ⟨_, rfl, rfl, fourByteParser_honours _ _, rfl, rfl, rfl, by decide⟩

/-! ## Stream transfer -/

/-- C7, the code at the failing input: one stream holding a read event of 10
bytes, requestor side, with the sample parser (messages of four bytes). The
first transfer emits two rows and stops in the middle of the event, leaving
offset 8. The second transfer, with no event admitted in between, appends no
row but resets the offset to 0; the third transfer then emits the same two
messages again. -/
theorem TransferHTTPStreams_second_run_resets_offset :
    ∃ c2 rows1 c3 rows2 c4 rows3,
      TransferHTTPStreams (sampleExternals fourByteParser)
        (AcceptEvent (sampleExternals fourByteParser)
          (sampleConnector [(GetStreamId 1 1, sampleConn 5)])
          (sampleEvent 3 0 [1, 2, 3, 4, 5, 6, 7, 8, 9, 10])) [] = Except.ok (c2, rows1) ∧
      TransferHTTPStreams (sampleExternals fourByteParser) c2 rows1 = Except.ok (c3, rows2) ∧
      TransferHTTPStreams (sampleExternals fourByteParser) c3 rows2 = Except.ok (c4, rows3) ∧
      c2.http_streams_.map (fun kv => (kv.2.recv_events.length, kv.2.send_offset)) = [(1, 8)] ∧
      c3.http_streams_.map (fun kv => (kv.2.recv_events.length, kv.2.send_offset)) = [(1, 0)] ∧
      rows1.map (fun row => row.http_resp_status) = [1, 5] ∧
      rows2 = rows1 ∧
      rows3.map (fun row => row.http_resp_status) = [1, 5, 1, 5] :=
  ⟨_, _, _, _, _, _, rfl, rfl, rfl, by decide, by decide, by decide, rfl, by decide⟩

/-! ## The offset invariant along reachable states -/

theorem StdMap.mem_emplace {V : Type} (m : StdMap V) (key : Nat) (val : V) (kv : Nat × V)
    (h : kv ∈ StdMap.emplace m key val) : kv = (key, val) ∨ kv ∈ m := by
  induction m with
  | nil =>
    simp only [StdMap.emplace, List.mem_singleton] at h
    exact Or.inl h
  | cons e rest ih =>
    obtain ⟨k, v⟩ := e
    unfold StdMap.emplace at h
    split at h
    · rcases List.mem_cons.mp h with h1 | h1
      · exact Or.inl h1
      · exact Or.inr h1
    · split at h
      · exact Or.inr h
      · rcases List.mem_cons.mp h with h1 | h1
        · exact Or.inr (List.mem_cons.mpr (Or.inl h1))
        · rcases ih h1 with h2 | h2
          · exact Or.inl h2
          · exact Or.inr (List.mem_cons.mpr (Or.inr h2))

/-- An insertion that keeps the head keeps the offset invariant. -/
theorem OffsetInv_emplace (events : StdMap socket_data_event_t) (event : socket_data_event_t)
    (seq_num offset : Nat) (hhead : keepsHead events seq_num) (hpos : 0 < event.attr.msg_size)
    (h : OffsetInv events offset) : OffsetInv (StdMap.emplace events seq_num event) offset := by
  cases events with
  | nil =>
    simp only [OffsetInv] at h
    subst h
    exact hpos
  | cons kv rest =>
    obtain ⟨k, e⟩ := kv
    simp only [keepsHead] at hhead
    have h1 : ¬ seq_num < k := by omega
    have h2 : ¬ seq_num = k := by omega
    simp only [StdMap.emplace, h1, h2, if_false]
    exact h

/-- Erasing the entries in front of an end position that honours the contract
leaves the offset invariant in place, when every slice is no longer than the
`msg_size` of its event and no event is empty. -/
theorem OffsetInv_drop (events : StdMap socket_data_event_t) (slices : List (List Nat × Nat))
    (pos : BufferPosition) (hc : HonoursEndPosition slices pos)
    (hpos : ∀ kv ∈ events, 0 < kv.2.attr.msg_size)
    (hsz : ∀ i, ((slices.map Prod.fst).getD i []).length ≤
      ((events.map (fun kv => kv.2.attr.msg_size)).getD i 0)) :
    OffsetInv (events.drop pos.seq_num) pos.offset := by
  have hb := hsz pos.seq_num
  cases hd : events.drop pos.seq_num with
  | nil =>
    have hlen : events.length ≤ pos.seq_num := List.drop_eq_nil_iff.mp hd
    have hz : (events.map (fun kv => kv.2.attr.msg_size)).getD pos.seq_num 0 = 0 :=
      List.getD_eq_default _ _ (by simpa using hlen)
    rw [hz] at hb
    rcases hc.2 with h0 | h0
    · exact h0
    · omega
  | cons kv rest =>
    obtain ⟨k, e⟩ := kv
    have hget : events[pos.seq_num]? = some (k, e) := by
      have h1 := List.getElem?_drop events pos.seq_num 0
      rw [hd] at h1
      simpa using h1.symm
    have hmem : (k, e) ∈ events :=
      List.mem_of_mem_drop (by rw [hd]; exact List.mem_cons_self _ _)
    have hv : (events.map (fun kv => kv.2.attr.msg_size)).getD pos.seq_num 0 =
        e.attr.msg_size := by
      rw [List.getD_eq_getElem?_getD, List.getElem?_map, hget]
      rfl
    rw [hv] at hb
    show pos.offset < e.attr.msg_size
    rcases hc.2 with h0 | h0
    · rw [h0]
      exact hpos (k, e) hmem
    · omega

/-- A call of `ParseEventStream` that returns keeps the offset invariant of the
pair it was given, and erases without adding. -/
theorem ParseEventStream_OffsetInv (x : Externals) (type : TrafficMessageType)
    (events : StdMap socket_data_event_t) (offset : Nat) (r : ParseEventStreamResult)
    (hpar : ∀ slices, HonoursEndPosition slices (x.ParseMessages type slices).end_position)
    (hpos : ∀ kv ∈ events, 0 < kv.2.attr.msg_size)
    (hinv : OffsetInv events offset)
    (h : ParseEventStream x type events offset = Except.ok r) :
    OffsetInv r.events r.offset ∧ ∀ kv ∈ r.events, kv ∈ events := by
  cases events with
  | nil => simp [ParseEventStream] at h
  | cons kv rest =>
    obtain ⟨first, e0⟩ := kv
    have hoff : offset < e0.attr.msg_size := hinv
    obtain ⟨msgs, hm, hhead⟩ := ParseEventStream_loop_head x first e0 rest offset (Or.inr hoff)
    obtain ⟨msgs1, hm1, hlen, hsz⟩ := ParseEventStream_loop_zero x rest ((first + 1) % 2 ^ 64)
    rw [hm1] at hm
    have hmsgs := (Prod.mk.inj (Except.ok.inj hm)).1
    subst hmsgs
    have hsub : (((payload e0).drop offset,
        (e0.attr.timestamp_ns + x.ClockRealTimeOffset) % 2 ^ 64) :: msgs1).length ≤
        ((first, e0) :: rest).length := by
      simp only [List.length_cons]; omega
    rw [ParseEventStream_of_loop x type first e0 rest offset _ hhead
      (Nat.le_trans (hpar _).1 hsub)] at h
    have hr := Except.ok.inj h
    subst hr
    refine ⟨OffsetInv_drop _ _ _ (hpar _) hpos ?_, fun kv hkv => List.mem_of_mem_drop hkv⟩
    intro i
    cases i with
    | zero =>
      simp only [List.map_cons, List.getD_cons_zero, payload, List.length_drop,
        List.length_take]
      omega
    | succ j => simpa using hsz j

/-- What a returning pass of the loop body of `TransferHTTPStreams` does to the
stream: it calls `ParseEventStream` on the pair `resp_events`, `resp_offset` and
writes the map and the offset back to the same pair. -/
theorem TransferHTTPStreams_body_ok (x : Externals) (config_mask_ : List Nat)
    (filter : HTTPHeaderFilter) (stream stream1 : EventStream) (rows : List HTTPRow)
    (h : TransferHTTPStreams_body x config_mask_ filter stream = Except.ok (stream1, rows)) :
    ∃ mask r, config_mask_[stream.protocol]? = some mask ∧
      ParseEventStream x TrafficMessageType.kMessageTypeResponses
        (resp_events (is_requestor_side x mask) stream)
        (resp_offset (is_requestor_side x mask) stream) = Except.ok r ∧
      stream1 = set_resp (is_requestor_side x mask) stream r.events r.offset := by
  unfold TransferHTTPStreams_body at h
  cases hmask : config_mask_[stream.protocol]? with
  | none => simp [hmask] at h
  | some mask =>
    simp only [hmask] at h
    split at h
    · simp at h
    · cases hp : ParseEventStream x TrafficMessageType.kMessageTypeResponses
          (resp_events (is_requestor_side x mask) stream)
          (resp_offset (is_requestor_side x mask) stream) with
      | error e => simp [hp] at h
      | ok r =>
        simp only [hp] at h
        exact ⟨mask, r, rfl, hp, (Prod.mk.inj (Except.ok.inj h)).1.symm⟩

/-- The invariant carried along reachable states: no stored event is empty, and
the offset invariant holds for the pair the transfer works on. -/
theorem Reachable_invariant (x : Externals) (config_mask_ : List Nat) (filter : HTTPHeaderFilter)
    (hpar : ∀ slices, HonoursEndPosition slices
      (x.ParseMessages TrafficMessageType.kMessageTypeResponses slices).end_position)
    (stream : EventStream) (h : Reachable x config_mask_ filter stream) :
    (∀ kv ∈ stream.recv_events, 0 < kv.2.attr.msg_size) ∧
    (∀ kv ∈ stream.send_events, 0 < kv.2.attr.msg_size) ∧
    ∀ requestor : Bool,
      OffsetInv (resp_events requestor stream) (resp_offset requestor stream) := by
  induction h with
  | registered kind conn =>
    refine ⟨?_, ?_, ?_⟩
    · intro kv hkv
      cases kind <;> simp [newStream] at hkv
    · intro kv hkv
      cases kind <;> simp [newStream] at hkv
    · intro requestor
      cases kind <;> cases requestor <;> simp [newStream, resp_events, resp_offset, OffsetInv]
  | append stream event _ hin ih =>
    obtain ⟨hrecv, hsend, hinv⟩ := ih
    obtain ⟨hpos, hdir⟩ := hin
    unfold AppendToStream_insert
    cases hd : EventStreamDirection x event.attr.event_type with
    | kUnknown => exact ⟨hrecv, hsend, hinv⟩
    | kSend =>
      rw [hd] at hdir
      refine ⟨hrecv, ?_, ?_⟩
      · intro kv hkv
        rcases StdMap.mem_emplace _ _ _ _ hkv with h1 | h1
        · rw [h1]; exact hpos
        · exact hsend kv h1
      · intro requestor
        have := hinv requestor
        cases requestor
        · simp only [resp_events, resp_offset, Bool.false_eq_true, if_false] at this ⊢
          exact OffsetInv_emplace _ _ _ _ hdir hpos this
        · simpa only [resp_events, resp_offset, if_true] using this
    | kRecv =>
      rw [hd] at hdir
      refine ⟨?_, hsend, ?_⟩
      · intro kv hkv
        rcases StdMap.mem_emplace _ _ _ _ hkv with h1 | h1
        · rw [h1]; exact hpos
        · exact hrecv kv h1
      · intro requestor
        have := hinv requestor
        cases requestor
        · simpa only [resp_events, resp_offset, Bool.false_eq_true, if_false] using this
        · simp only [resp_events, resp_offset, if_true] at this ⊢
          exact OffsetInv_emplace _ _ _ _ hdir hpos this
  | transfer stream stream1 rows _ hbody ih =>
    obtain ⟨hrecv, hsend, hinv⟩ := ih
    obtain ⟨mask, r, -, hp, hs1⟩ := TransferHTTPStreams_body_ok x config_mask_ filter _ _ _ hbody
    subst hs1
    generalize is_requestor_side x mask = q at hp
    have hposq : ∀ kv ∈ resp_events q stream, 0 < kv.2.attr.msg_size := by
      cases q
      · exact hsend
      · exact hrecv
    obtain ⟨hnew, hsub⟩ := ParseEventStream_OffsetInv x _ _ _ r hpar hposq (hinv q) hp
    cases q
    · refine ⟨hrecv, fun kv hkv => hsend kv (hsub kv hkv), ?_⟩
      intro requestor
      cases requestor
      · exact hnew
      · exact hinv true
    · refine ⟨fun kv hkv => hrecv kv (hsub kv hkv), hsend, ?_⟩
      intro requestor
      cases requestor
      · exact hinv false
      · exact hnew

/-- C4, the code at the failing inputs: requestor side, a parser of four-byte
messages that honours the end-position contract. First, events in order: a read
event of 10 bytes is admitted and a transfer stops inside it after 8 bytes. The
offset 8 is stored in `send_offset` while `send_events` is empty, and
`recv_offset` stays 0; after a write event of 6 bytes is admitted, `send_offset`
is not below the payload size of the smallest-keyed event of `send_events`.
Second, a late event: the read event with sequence number 1 (10 bytes) is
admitted, a transfer stops inside it at offset 8, and the read event with
sequence number 0 (3 bytes) is admitted. The offset 8 is not below the payload
size 3 of the new smallest-keyed event of `recv_events`, the map it is used
with, and the next transfer aborts on `CHECK(*offset < event.attr.msg_size)`. -/
theorem offset_invariant_fails_in_reachable_states :
    (∀ slices, HonoursEndPosition slices
      (fourByteParser TrafficMessageType.kMessageTypeResponses slices).end_position) ∧
    (∃ c1 rows s1 s2,
      TransferHTTPStreams (sampleExternals fourByteParser)
        (AppendToStream (sampleExternals fourByteParser)
          (sampleConnector [(GetStreamId 1 1, sampleConn 5)]) StreamKind.kHTTPStream
          (sampleEvent 3 0 [1, 2, 3, 4, 5, 6, 7, 8, 9, 10])) [] = Except.ok (c1, rows) ∧
      c1.http_streams_ = [(GetStreamId 1 1, s1)] ∧
      s1.recv_events = [(0, sampleEvent 3 0 [1, 2, 3, 4, 5, 6, 7, 8, 9, 10])] ∧
      s1.recv_offset = 0 ∧
      s1.send_events = [] ∧
      s1.send_offset = 8 ∧
      ¬ OffsetInv s1.send_events s1.send_offset ∧
      (AppendToStream (sampleExternals fourByteParser) c1 StreamKind.kHTTPStream
        (sampleEvent 1 0 [1, 2, 3, 4, 5, 6])).http_streams_ = [(GetStreamId 1 1, s2)] ∧
      s2.send_events = [(0, sampleEvent 1 0 [1, 2, 3, 4, 5, 6])] ∧
      s2.send_offset = 8 ∧
      ¬ OffsetInv s2.send_events s2.send_offset) ∧
    ∃ c2 rows s3,
      TransferHTTPStreams (sampleExternals fourByteParser)
        (AppendToStream (sampleExternals fourByteParser)
          (sampleConnector [(GetStreamId 1 1, sampleConn 5)]) StreamKind.kHTTPStream
          (sampleEvent 3 1 [1, 2, 3, 4, 5, 6, 7, 8, 9, 10])) [] = Except.ok (c2, rows) ∧
      (AppendToStream (sampleExternals fourByteParser) c2 StreamKind.kHTTPStream
        (sampleEvent 3 0 [1, 2, 3])).http_streams_ = [(GetStreamId 1 1, s3)] ∧
      s3.recv_events =
        [(0, sampleEvent 3 0 [1, 2, 3]), (1, sampleEvent 3 1 [1, 2, 3, 4, 5, 6, 7, 8, 9, 10])] ∧
      s3.recv_offset = 0 ∧
      s3.send_events = [] ∧
      s3.send_offset = 8 ∧
      ¬ OffsetInv s3.send_events s3.send_offset ∧
      ¬ OffsetInv (resp_events true s3) (resp_offset true s3) ∧
      TransferHTTPStreams (sampleExternals fourByteParser)
        (AppendToStream (sampleExternals fourByteParser) c2 StreamKind.kHTTPStream
          (sampleEvent 3 0 [1, 2, 3])) rows = Except.error Fault.check_offset_lt_msg_size :=
  ⟨fun slices => fourByteParser_honours TrafficMessageType.kMessageTypeResponses slices,
    ⟨_, _, _, _, rfl, rfl, rfl, rfl, rfl, rfl, by decide, rfl, rfl, rfl, by decide⟩,
    ⟨_, _, _, rfl, rfl, rfl, rfl, rfl, rfl, by decide, by decide, rfl⟩⟩

/-! ## Closing a connection -/

theorem StdMap.find_erase_self {V : Type} (m : StdMap V) (key : Nat) (hwf : StdMap.WF m) :
    StdMap.find (StdMap.erase m key) key = none := by
  induction m with
  | nil => rfl
  | cons kv rest ih =>
    obtain ⟨k, v⟩ := kv
    obtain ⟨hrest, _, hlt⟩ := StdMap.WF_cons hwf
    by_cases hk : k = key
    · subst hk
      simp only [StdMap.erase, if_true]
      exact StdMap.find_eq_none_of_lt rest k hlt
    · simp only [StdMap.erase, hk, if_false, StdMap.find]
      exact ih hrest

theorem StdMap.find_erase_of_ne {V : Type} (m : StdMap V) (key key1 : Nat) (h : key1 ≠ key) :
    StdMap.find (StdMap.erase m key) key1 = StdMap.find m key1 := by
  induction m with
  | nil => rfl
  | cons kv rest ih =>
    obtain ⟨k, v⟩ := kv
    by_cases hk : k = key
    · subst hk
      have hne : ¬ k = key1 := fun e => h e.symm
      simp only [StdMap.erase, if_true, StdMap.find, hne, if_false]
    · by_cases hk1 : k = key1
      · subst hk1
        simp [StdMap.erase, hk, StdMap.find]
      · simp only [StdMap.erase, hk, if_false, StdMap.find, hk1, ih]

theorem StdMap.find_erase_of_absent {V : Type} (m : StdMap V) (key key1 : Nat)
    (h : StdMap.find m key1 = none) : StdMap.find (StdMap.erase m key) key1 = none := by
  induction m with
  | nil => rfl
  | cons kv rest ih =>
    obtain ⟨k, v⟩ := kv
    by_cases hk1 : k = key1
    · simp [StdMap.find, hk1] at h
    · simp only [StdMap.find, hk1, if_false] at h
      by_cases hk : k = key
      · simp only [StdMap.erase, hk, if_true]
        exact h
      · simp only [StdMap.erase, hk, if_false, StdMap.find, hk1]
        exact ih h

theorem StdMap.keys_modify {V : Type} (m : StdMap V) (key : Nat) (f : V → V) :
    StdMap.keys (StdMap.modify m key f) = StdMap.keys m := by
  induction m with
  | nil => rfl
  | cons kv rest ih =>
    obtain ⟨k, v⟩ := kv
    by_cases hk : k = key
    · simp [StdMap.modify, StdMap.keys, hk]
    · simp only [StdMap.keys] at ih
      simp [StdMap.modify, StdMap.keys, hk, ih]

theorem StdMap.find_modify_self {V : Type} (m : StdMap V) (key : Nat) (f : V → V) :
    StdMap.find (StdMap.modify m key f) key = (StdMap.find m key).map f := by
  induction m with
  | nil => rfl
  | cons kv rest ih =>
    obtain ⟨k, v⟩ := kv
    by_cases hk : k = key
    · simp [StdMap.modify, StdMap.find, hk]
    · simp [StdMap.modify, StdMap.find, hk, ih]

theorem StdMap.find_modify_of_ne {V : Type} (m : StdMap V) (key key1 : Nat) (f : V → V)
    (h : key1 ≠ key) : StdMap.find (StdMap.modify m key f) key1 = StdMap.find m key1 := by
  induction m with
  | nil => rfl
  | cons kv rest ih =>
    obtain ⟨k, v⟩ := kv
    by_cases hk : k = key
    · subst hk
      have hne : ¬ k = key1 := fun e => h e.symm
      simp [StdMap.modify, StdMap.find, hne]
    · by_cases hk1 : k = key1
      · subst hk1
        simp [StdMap.modify, StdMap.find, hk]
      · simp [StdMap.modify, StdMap.find, hk, hk1, ih]

/-- C11, as stated, fails: a stream registered for a connection is still in
`http_streams_` after `CloseConn` of that connection. -/
theorem CloseConn_keeps_stream_state :
    (StdMap.find
      (CloseConn
        (AppendToStream (sampleExternals fourByteParser)
          (sampleConnector [(GetStreamId 1 1, sampleConn 5)]) StreamKind.kHTTPStream
          (sampleEvent 1 0 [1, 2]))
        (sampleConn 5)).http_streams_ (GetStreamId 1 1)).isSome = true := by
  decide

/-- C11, amended: after `CloseConn(conn_info)` the connector holds no connection
record and no endpoint cache entry for conn_info's stream key, the records and
cache entries of every other stream key are unchanged, and `http_streams_` and
`http2_streams_` are unchanged (the stream state of the closed connection
included). -/
theorem CloseConn_erases_record_and_cache (c : SocketTraceConnector) (conn_info : conn_info_t)
    (hconn : StdMap.WF c.connections_) (hcache : StdMap.WF c.ip_endpoints_) :
    StdMap.find (CloseConn c conn_info).connections_
        (GetStreamId conn_info.tgid conn_info.conn_id) = none ∧
    StdMap.find (CloseConn c conn_info).ip_endpoints_
        (GetStreamId conn_info.tgid conn_info.conn_id) = none ∧
    (∀ key, key ≠ GetStreamId conn_info.tgid conn_info.conn_id →
      StdMap.find (CloseConn c conn_info).connections_ key = StdMap.find c.connections_ key ∧
      StdMap.find (CloseConn c conn_info).ip_endpoints_ key = StdMap.find c.ip_endpoints_ key) ∧
    (CloseConn c conn_info).http_streams_ = c.http_streams_ ∧
    (CloseConn c conn_info).http2_streams_ = c.http2_streams_ :=
  ⟨StdMap.find_erase_self _ _ hconn, StdMap.find_erase_self _ _ hcache,
    fun _ hkey => ⟨StdMap.find_erase_of_ne _ _ _ hkey, StdMap.find_erase_of_ne _ _ _ hkey⟩,
    rfl, rfl⟩

/-- Witness of the amended C11: a connector with one registered connection and
its stream. -/
theorem CloseConn_erases_record_and_cache_witness :
    StdMap.find (CloseConn
        (AppendToStream (sampleExternals fourByteParser)
          (sampleConnector [(GetStreamId 1 1, sampleConn 5)]) StreamKind.kHTTPStream
          (sampleEvent 1 0 [1, 2]))
        (sampleConn 5)).connections_ (GetStreamId (sampleConn 5).tgid (sampleConn 5).conn_id) =
      none :=
  (CloseConn_erases_record_and_cache
    (AppendToStream (sampleExternals fourByteParser)
      (sampleConnector [(GetStreamId 1 1, sampleConn 5)]) StreamKind.kHTTPStream
      (sampleEvent 1 0 [1, 2]))
    (sampleConn 5) (by decide) (by decide)).1

/-! ## Data events without a connection record -/

/-- `AppendToStream` for a stream key without a connection record: no stream is
created, and the registry and the endpoint cache are left as they are. -/
theorem AppendToStream_no_record (x : Externals) (c : SocketTraceConnector) (kind : StreamKind)
    (event : socket_data_event_t)
    (h : StdMap.find c.connections_ (GetStreamId event.attr.tgid event.attr.conn_id) = none) :
    StdMap.keys (AppendToStream x c kind event).http_streams_ = StdMap.keys c.http_streams_ ∧
    StdMap.keys (AppendToStream x c kind event).http2_streams_ = StdMap.keys c.http2_streams_ ∧
    (AppendToStream x c kind event).connections_ = c.connections_ ∧
    (AppendToStream x c kind event).ip_endpoints_ = c.ip_endpoints_ := by
  unfold AppendToStream
  cases hf : StdMap.find (streamsOf c kind) (GetStreamId event.attr.tgid event.attr.conn_id) with
  | none => simp [hf, h]
  | some stream =>
    simp only [hf]
    cases kind <;> simp [setStreams, streamsOf, StdMap.keys_modify]

/-- A data event never changes the connection registry. -/
theorem AcceptEvent_connections (x : Externals) (c : SocketTraceConnector)
    (event : socket_data_event_t) : (AcceptEvent x c event).connections_ = c.connections_ := by
  have key : ∀ (kind : StreamKind) (e : socket_data_event_t),
      (AppendToStream x c kind e).connections_ = c.connections_ := by
    intro kind e
    unfold AppendToStream
    cases hf : StdMap.find (streamsOf c kind) (GetStreamId e.attr.tgid e.attr.conn_id) with
    | some stream =>
      simp only [hf]
      cases kind <;> rfl
    | none =>
      cases hg : StdMap.find c.connections_ (GetStreamId e.attr.tgid e.attr.conn_id) with
      | none => simp only [hf, hg]
      | some conn_info =>
        simp only [hf, hg]
        cases kind <;> rfl
  unfold AcceptEvent
  simp only
  split
  · exact key _ _
  · split
    · exact key _ _
    · rfl

/-- A transfer that returns leaves everything but `http_streams_` as it was. -/
theorem TransferHTTPStreams_frame (x : Externals) (c c1 : SocketTraceConnector)
    (batch rows : List HTTPRow) (h : TransferHTTPStreams x c batch = Except.ok (c1, rows)) :
    c1.connections_ = c.connections_ ∧ c1.ip_endpoints_ = c.ip_endpoints_ ∧
    c1.http2_streams_ = c.http2_streams_ ∧ c1.config_mask_ = c.config_mask_ := by
  unfold TransferHTTPStreams at h
  cases hl : TransferHTTPStreams_loop x c.config_mask_ c.http_response_header_filter_
      c.http_streams_ with
  | error e => simp [hl] at h
  | ok r =>
    obtain ⟨streams, rows1⟩ := r
    simp only [hl] at h
    have hc := (Prod.mk.inj (Except.ok.inj h)).1
    subst hc
    exact ⟨rfl, rfl, rfl, rfl⟩

/-- A call other than `OpenConn` of the stream key does not bring a connection
record for that key into the registry. -/
theorem applyCall_keeps_absent (x : Externals) (c c1 : SocketTraceConnector)
    (call : ConnectorCall) (key : Nat)
    (hcall : ∀ ci, call = ConnectorCall.openConn ci → GetStreamId ci.tgid ci.conn_id ≠ key)
    (h : applyCall x c call = some c1)
    (habs : StdMap.find c.connections_ key = none) :
    StdMap.find c1.connections_ key = none := by
  cases call with
  | openConn ci =>
    simp only [applyCall, Option.some.injEq] at h
    subst h
    have hne := hcall ci rfl
    simp only [OpenConn]
    rw [StdMap.find_emplace_of_ne _ _ _ _ (fun e => hne e.symm)]
    exact habs
  | closeConn ci =>
    simp only [applyCall, Option.some.injEq] at h
    subst h
    exact StdMap.find_erase_of_absent _ _ _ habs
  | acceptEvent event =>
    simp only [applyCall, Option.some.injEq] at h
    subst h
    rw [AcceptEvent_connections]
    exact habs
  | transfer =>
    simp only [applyCall] at h
    cases ht : TransferHTTPStreams x c [] with
    | error e => simp [ht] at h
    | ok r =>
      obtain ⟨c2, rows⟩ := r
      simp only [ht, Option.some.injEq] at h
      subst h
      rw [(TransferHTTPStreams_frame x c c2 [] rows ht).1]
      exact habs

theorem applyCalls_keeps_absent (x : Externals) (calls : List ConnectorCall) (key : Nat) :
    ∀ (c c1 : SocketTraceConnector),
      (∀ ci, ConnectorCall.openConn ci ∈ calls → GetStreamId ci.tgid ci.conn_id ≠ key) →
      applyCalls x c calls = some c1 →
      StdMap.find c.connections_ key = none →
      StdMap.find c1.connections_ key = none := by
  induction calls with
  | nil =>
    intro c c1 _ h habs
    simp only [applyCalls, Option.some.injEq] at h
    subst h
    exact habs
  | cons call rest ih =>
    intro c c1 hno h habs
    simp only [applyCalls] at h
    cases hc : applyCall x c call with
    | none => simp [hc] at h
    | some c2 =>
      simp only [hc] at h
      refine ih c2 c1 (fun ci hci => hno ci (List.mem_cons_of_mem _ hci)) h ?_
      exact applyCall_keeps_absent x c c2 call key
        (fun ci hci => hno ci (by rw [hci]; exact List.mem_cons_self _ _)) hc habs

/-- A data event whose stream key has no connection record creates no stream
and leaves the registry and the endpoint cache as they are. -/
theorem AcceptEvent_no_record (x : Externals) (c : SocketTraceConnector)
    (event : socket_data_event_t)
    (h : StdMap.find c.connections_ (GetStreamId event.attr.tgid event.attr.conn_id) = none) :
    StdMap.keys (AcceptEvent x c event).http_streams_ = StdMap.keys c.http_streams_ ∧
    StdMap.keys (AcceptEvent x c event).http2_streams_ = StdMap.keys c.http2_streams_ ∧
    (AcceptEvent x c event).connections_ = c.connections_ ∧
    (AcceptEvent x c event).ip_endpoints_ = c.ip_endpoints_ := by
  unfold AcceptEvent
  simp only
  split
  · exact AppendToStream_no_record x c _ _ h
  · split
    · exact AppendToStream_no_record x c _ _ h
    · exact ⟨rfl, rfl, rfl, rfl⟩

/-- C12: after `CloseConn` for a stream key and any further calls that return
and contain no `OpenConn` for that key, an `AcceptEvent` of a data event
carrying that key creates no new state: the sets of stream keys of
`http_streams_` and `http2_streams_`, the connection registry and the endpoint
cache are unchanged. -/
theorem AcceptEvent_after_CloseConn (x : Externals) (c c1 : SocketTraceConnector)
    (conn_info : conn_info_t) (calls : List ConnectorCall) (event : socket_data_event_t)
    (hwf : StdMap.WF c.connections_)
    (hnoopen : ∀ ci, ConnectorCall.openConn ci ∈ calls →
      GetStreamId ci.tgid ci.conn_id ≠ GetStreamId conn_info.tgid conn_info.conn_id)
    (hrun : applyCalls x (CloseConn c conn_info) calls = some c1)
    (hkey : GetStreamId event.attr.tgid event.attr.conn_id =
      GetStreamId conn_info.tgid conn_info.conn_id) :
    StdMap.keys (AcceptEvent x c1 event).http_streams_ = StdMap.keys c1.http_streams_ ∧
    StdMap.keys (AcceptEvent x c1 event).http2_streams_ = StdMap.keys c1.http2_streams_ ∧
    (AcceptEvent x c1 event).connections_ = c1.connections_ ∧
    (AcceptEvent x c1 event).ip_endpoints_ = c1.ip_endpoints_ := by
  apply AcceptEvent_no_record
  rw [hkey]
  exact applyCalls_keeps_absent x calls _ _ c1 hnoopen hrun (StdMap.find_erase_self _ _ hwf)

/-- C13: a data event whose stream key has neither a stream state nor a
connection record is dropped: `AcceptEvent` returns the connector as it was
(`http_streams_`, `http2_streams_`, the registry and the endpoint cache), and,
having no access to the record batch, emits no row. -/
theorem AcceptEvent_orphan_dropped (x : Externals) (c : SocketTraceConnector)
    (event : socket_data_event_t)
    (hhttp : StdMap.find c.http_streams_
      (GetStreamId event.attr.tgid event.attr.conn_id) = none)
    (hhttp2 : StdMap.find c.http2_streams_
      (GetStreamId event.attr.tgid event.attr.conn_id) = none)
    (hconn : StdMap.find c.connections_
      (GetStreamId event.attr.tgid event.attr.conn_id) = none) :
    AcceptEvent x c event = c := by
  unfold AcceptEvent
  simp only
  split
  · unfold AppendToStream
    simp only [streamsOf, hhttp, hconn]
  · split
    · unfold AppendToStream
      simp only [streamsOf, hhttp2, hconn]
    · rfl

/-- Witness of C12: a connection with a stream is closed; a data event, a
transfer and the open event of another process follow; then a data event of the
closed connection arrives. -/
theorem AcceptEvent_after_CloseConn_witness :
    ∃ c1,
      applyCalls (sampleExternals fourByteParser)
        (CloseConn
          (AppendToStream (sampleExternals fourByteParser)
            (sampleConnector [(GetStreamId 1 1, sampleConn 5)]) StreamKind.kHTTPStream
            (sampleEvent 3 0 [1, 2, 3, 4]))
          (sampleConn 5))
        [ConnectorCall.acceptEvent (sampleEvent 3 1 [5, 6, 7, 8]), ConnectorCall.transfer,
          ConnectorCall.openConn
            { timestamp_ns := 0, tgid := 2, fd := 7, conn_id := 1, addr := [] }] = some c1 ∧
      StdMap.keys (AcceptEvent (sampleExternals fourByteParser) c1
        (sampleEvent 3 2 [9])).http_streams_ = StdMap.keys c1.http_streams_ ∧
      StdMap.keys (AcceptEvent (sampleExternals fourByteParser) c1
        (sampleEvent 3 2 [9])).http2_streams_ = StdMap.keys c1.http2_streams_ ∧
      (AcceptEvent (sampleExternals fourByteParser) c1 (sampleEvent 3 2 [9])).connections_ =
        c1.connections_ ∧
      (AcceptEvent (sampleExternals fourByteParser) c1 (sampleEvent 3 2 [9])).ip_endpoints_ =
        c1.ip_endpoints_ :=
  ⟨_, rfl,
    AcceptEvent_after_CloseConn (sampleExternals fourByteParser)
      (AppendToStream (sampleExternals fourByteParser)
        (sampleConnector [(GetStreamId 1 1, sampleConn 5)]) StreamKind.kHTTPStream
        (sampleEvent 3 0 [1, 2, 3, 4]))
      _ (sampleConn 5)
      [ConnectorCall.acceptEvent (sampleEvent 3 1 [5, 6, 7, 8]), ConnectorCall.transfer,
        ConnectorCall.openConn
          { timestamp_ns := 0, tgid := 2, fd := 7, conn_id := 1, addr := [] }]
      (sampleEvent 3 2 [9])
      (by decide)
      (by
        intro ci hci
        simp only [List.mem_cons, List.mem_singleton, List.mem_nil_iff, or_false,
          ConnectorCall.openConn.injEq] at hci
        rcases hci with h | h | h
        · cases h
        · cases h
        · subst h
          decide)
      rfl rfl⟩

/-- Witness of C13: a data event arrives at a connector that holds nothing. -/
theorem AcceptEvent_orphan_dropped_witness :
    AcceptEvent (sampleExternals fourByteParser) (sampleConnector []) (sampleEvent 3 0 [1]) =
      sampleConnector [] :=
  AcceptEvent_orphan_dropped (sampleExternals fourByteParser) (sampleConnector [])
    (sampleEvent 3 0 [1]) rfl rfl rfl

/-! ## Lazy creation of stream state -/

/-- C14, as stated, fails: an HTTP data event of a type that is none of the four
syscall types, arriving for a registered connection without a stream, creates
the stream but is not stored in it. -/
theorem AcceptEvent_creates_stream_without_event :
    (StdMap.find
      (AcceptEvent (sampleExternals fourByteParser)
        (sampleConnector [(GetStreamId 1 1, sampleConn 5)])
        (sampleEvent 9 0 [1, 2, 3])).http_streams_ (GetStreamId 1 1)).map
        (fun stream => (stream.send_events, stream.recv_events)) = some ([], []) := by
  decide

/-- C14, amended: for every HTTP data event whose stream key has a connection
record but no stream state, `AcceptEvent` creates one new stream state under
that key, with zero offsets and a value copy of the connection's fields (tgid,
fd, and open timestamp plus the clock offset). It records the endpoint parse
result in the endpoint cache under the same key unless the cache already holds
an entry for the key, which is kept. It stores the event (with its timestamp
moved by the clock offset) in the map of its direction when its type is one of
the four syscall types; an event of another type leaves the new stream empty.
Stream states and cache entries of other keys, `http2_streams_` and the
registry are unchanged. -/
theorem AcceptEvent_creates_stream (x : Externals) (c : SocketTraceConnector)
    (event : socket_data_event_t) (conn_info : conn_info_t)
    (hproto : event.attr.protocol = x.kProtocolHTTP)
    (hnone : StdMap.find c.http_streams_
      (GetStreamId event.attr.tgid event.attr.conn_id) = none)
    (hconn : StdMap.find c.connections_
      (GetStreamId event.attr.tgid event.attr.conn_id) = some conn_info)
    (hcache : StdMap.WF c.ip_endpoints_) :
    (∃ stream,
      StdMap.find (AcceptEvent x c event).http_streams_
        (GetStreamId event.attr.tgid event.attr.conn_id) = some stream ∧
      stream.recv_offset = 0 ∧ stream.send_offset = 0 ∧
      stream.protocol = x.kProtocolHTTP ∧
      stream.conn.tgid = conn_info.tgid ∧ stream.conn.fd = conn_info.fd ∧
      stream.conn.timestamp_ns = (conn_info.timestamp_ns + x.ClockRealTimeOffset) % 2 ^ 64 ∧
      match EventStreamDirection x event.attr.event_type with
      | StreamDirection.kSend =>
        stream.send_events = [(event.attr.seq_num,
          { event with attr := { event.attr with
            timestamp_ns := (event.attr.timestamp_ns + x.ClockRealTimeOffset) % 2 ^ 64 } })] ∧
        stream.recv_events = []
      | StreamDirection.kRecv =>
        stream.recv_events = [(event.attr.seq_num,
          { event with attr := { event.attr with
            timestamp_ns := (event.attr.timestamp_ns + x.ClockRealTimeOffset) % 2 ^ 64 } })] ∧
        stream.send_events = []
      | StreamDirection.kUnknown => stream.send_events = [] ∧ stream.recv_events = []) ∧
    (∀ key, key ≠ GetStreamId event.attr.tgid event.attr.conn_id →
      StdMap.find (AcceptEvent x c event).http_streams_ key = StdMap.find c.http_streams_ key ∧
      StdMap.find (AcceptEvent x c event).ip_endpoints_ key =
        StdMap.find c.ip_endpoints_ key) ∧
    StdMap.find (AcceptEvent x c event).ip_endpoints_
        (GetStreamId event.attr.tgid event.attr.conn_id) =
      some ((StdMap.find c.ip_endpoints_
        (GetStreamId event.attr.tgid event.attr.conn_id)).getD (x.ParseSockAddr conn_info)) ∧
    (AcceptEvent x c event).http2_streams_ = c.http2_streams_ ∧
    (AcceptEvent x c event).connections_ = c.connections_ := by
  have hstep : AcceptEvent x c event =
      { c with
        ip_endpoints_ := StdMap.emplace c.ip_endpoints_
          (GetStreamId event.attr.tgid event.attr.conn_id) (x.ParseSockAddr conn_info),
        http_streams_ := StdMap.modify
          (StdMap.emplace c.http_streams_ (GetStreamId event.attr.tgid event.attr.conn_id)
            { newStream x StreamKind.kHTTPStream with
              conn :=
                match x.ParseSockAddr conn_info with
                | some ep =>
                  { (newStream x StreamKind.kHTTPStream).conn with
                    timestamp_ns := (conn_info.timestamp_ns + x.ClockRealTimeOffset) % 2 ^ 64,
                    tgid := conn_info.tgid, fd := conn_info.fd,
                    remote_addr := ep.ip, remote_port := ep.port }
                | none =>
                  { (newStream x StreamKind.kHTTPStream).conn with
                    timestamp_ns := (conn_info.timestamp_ns + x.ClockRealTimeOffset) % 2 ^ 64,
                    tgid := conn_info.tgid, fd := conn_info.fd } })
          (GetStreamId event.attr.tgid event.attr.conn_id)
          (fun s => AppendToStream_insert x s
            { event with attr := { event.attr with
              timestamp_ns :=
                (event.attr.timestamp_ns + x.ClockRealTimeOffset) % 2 ^ 64 } }) } := by
    unfold AcceptEvent
    simp only [hproto, if_true]
    unfold AppendToStream
    simp only [streamsOf, hnone, hconn]
    unfold RegisterStream
    simp only [setStreams, streamsOf]
  rw [hstep]
  refine ⟨?_, ?_, ?_, rfl, rfl⟩
  · simp only [StdMap.find_modify_self, StdMap.find_emplace_of_absent _ _ _ hnone,
      Option.map_some']
    refine ⟨_, rfl, ?_⟩
    unfold AppendToStream_insert
    simp only
    cases EventStreamDirection x event.attr.event_type <;>
      cases x.ParseSockAddr conn_info <;>
      simp [newStream, StdMap.emplace]
  · intro key hkey
    simp only [StdMap.find_modify_of_ne _ _ _ _ hkey, StdMap.find_emplace_of_ne _ _ _ _ hkey,
      and_self]
  · simp only
    cases hf : StdMap.find c.ip_endpoints_ (GetStreamId event.attr.tgid event.attr.conn_id) with
    | none => simp only [Option.getD_none, StdMap.find_emplace_of_absent _ _ _ hf]
    | some old =>
      rw [StdMap.emplace_of_present _ _ _ hcache (by simp [hf]), hf]
      rfl

/-- Witness of the amended C14: the first read event of a registered
connection; the endpoint cache, empty before, holds the parse result. -/
theorem AcceptEvent_creates_stream_witness :
    StdMap.find
      (AcceptEvent (sampleExternals fourByteParser)
        (sampleConnector [(GetStreamId 1 1, sampleConn 5)])
        (sampleEvent 3 0 [1, 2, 3])).ip_endpoints_
      (GetStreamId (sampleEvent 3 0 [1, 2, 3]).attr.tgid
        (sampleEvent 3 0 [1, 2, 3]).attr.conn_id) =
    some ((StdMap.find (sampleConnector [(GetStreamId 1 1, sampleConn 5)]).ip_endpoints_
      (GetStreamId (sampleEvent 3 0 [1, 2, 3]).attr.tgid
        (sampleEvent 3 0 [1, 2, 3]).attr.conn_id)).getD
      ((sampleExternals fourByteParser).ParseSockAddr (sampleConn 5))) :=
  (AcceptEvent_creates_stream (sampleExternals fourByteParser)
    (sampleConnector [(GetStreamId 1 1, sampleConn 5)]) (sampleEvent 3 0 [1, 2, 3])
    (sampleConn 5) rfl rfl (by decide) (by decide)).2.2.1

/-! ## Routing by direction -/

theorem StdMap.find_emplace_self {V : Type} (m : StdMap V) (key : Nat) (val : V)
    (hwf : StdMap.WF m) :
    StdMap.find (StdMap.emplace m key val) key = some ((StdMap.find m key).getD val) := by
  cases hf : StdMap.find m key with
  | none => simp only [Option.getD_none, StdMap.find_emplace_of_absent _ _ _ hf]
  | some old =>
    rw [StdMap.emplace_of_present _ _ _ hwf (by simp [hf]), hf]
    rfl

theorem streamsOf_setStreams (c : SocketTraceConnector) (kind : StreamKind)
    (m : StdMap EventStream) : streamsOf (setStreams c kind m) kind = m := by
  cases kind <;> rfl

/-- C15, as stated, fails: a read event admitted to a stream whose receive map
already holds an entry under its sequence number is not inserted; the map is
left as it is. -/
theorem AppendToStream_does_not_insert_duplicate :
    (StdMap.find
      (AppendToStream (sampleExternals fourByteParser)
        (AppendToStream (sampleExternals fourByteParser)
          (sampleConnector [(GetStreamId 1 1, sampleConn 5)])
          StreamKind.kHTTPStream (sampleEvent 3 4 [1, 2]))
        StreamKind.kHTTPStream (sampleEvent 3 4 [7, 8, 9])).http_streams_
      (GetStreamId 1 1)).map (fun stream => stream.recv_events) =
      some [(4, sampleEvent 3 4 [1, 2])] ∧
    sampleEvent 3 4 [7, 8, 9] ≠ sampleEvent 3 4 [1, 2] := by
  decide

/-- C15, amended: for every data event admitted to an existing stream,
`AppendToStream` inserts it under its sequence number into `send_events` when
its event type is syscall_write or syscall_send and into `recv_events` when it
is syscall_read or syscall_recv, unless that map already holds an entry under
that sequence number, which is then kept; the other entries of that map, the map
of the other direction and both offsets are unchanged; an event of any other
type is inserted into neither map. -/
theorem AppendToStream_routes_by_direction (x : Externals) (c : SocketTraceConnector)
    (kind : StreamKind) (event : socket_data_event_t) (stream : EventStream)
    (hstream : StdMap.find (streamsOf c kind)
      (GetStreamId event.attr.tgid event.attr.conn_id) = some stream)
    (hsend : StdMap.WF stream.send_events) (hrecv : StdMap.WF stream.recv_events)
    (hdistinct : x.kEventTypeSyscallReadEvent ≠ x.kEventTypeSyscallWriteEvent ∧
      x.kEventTypeSyscallReadEvent ≠ x.kEventTypeSyscallSendEvent ∧
      x.kEventTypeSyscallRecvEvent ≠ x.kEventTypeSyscallWriteEvent ∧
      x.kEventTypeSyscallRecvEvent ≠ x.kEventTypeSyscallSendEvent) :
    ∃ stream1,
      StdMap.find (streamsOf (AppendToStream x c kind event) kind)
        (GetStreamId event.attr.tgid event.attr.conn_id) = some stream1 ∧
      stream1.recv_offset = stream.recv_offset ∧
      stream1.send_offset = stream.send_offset ∧
      (event.attr.event_type = x.kEventTypeSyscallWriteEvent ∨
          event.attr.event_type = x.kEventTypeSyscallSendEvent →
        stream1.recv_events = stream.recv_events ∧
        StdMap.find stream1.send_events event.attr.seq_num =
          some ((StdMap.find stream.send_events event.attr.seq_num).getD event) ∧
        ∀ key, key ≠ event.attr.seq_num →
          StdMap.find stream1.send_events key = StdMap.find stream.send_events key) ∧
      (event.attr.event_type = x.kEventTypeSyscallReadEvent ∨
          event.attr.event_type = x.kEventTypeSyscallRecvEvent →
        stream1.send_events = stream.send_events ∧
        StdMap.find stream1.recv_events event.attr.seq_num =
          some ((StdMap.find stream.recv_events event.attr.seq_num).getD event) ∧
        ∀ key, key ≠ event.attr.seq_num →
          StdMap.find stream1.recv_events key = StdMap.find stream.recv_events key) ∧
      (event.attr.event_type ≠ x.kEventTypeSyscallWriteEvent →
        event.attr.event_type ≠ x.kEventTypeSyscallSendEvent →
        event.attr.event_type ≠ x.kEventTypeSyscallReadEvent →
        event.attr.event_type ≠ x.kEventTypeSyscallRecvEvent →
        stream1.send_events = stream.send_events ∧
        stream1.recv_events = stream.recv_events) := by
  refine ⟨AppendToStream_insert x stream event, ?_, ?_, ?_, ?_, ?_, ?_⟩
  · unfold AppendToStream
    simp only [hstream, streamsOf_setStreams, StdMap.find_modify_self, Option.map_some']
  · unfold AppendToStream_insert
    cases EventStreamDirection x event.attr.event_type <;> rfl
  · unfold AppendToStream_insert
    cases EventStreamDirection x event.attr.event_type <;> rfl
  · intro htype
    have hdir : EventStreamDirection x event.attr.event_type = StreamDirection.kSend := by
      unfold EventStreamDirection
      rcases htype with h | h
      · simp only [h, if_true]
      · simp only [h, if_true, ite_self]
    simp only [AppendToStream_insert, hdir]
    exact ⟨trivial, StdMap.find_emplace_self _ _ _ hsend,
      fun key hkey => StdMap.find_emplace_of_ne _ _ _ _ hkey⟩
  · intro htype
    have hdir : EventStreamDirection x event.attr.event_type = StreamDirection.kRecv := by
      unfold EventStreamDirection
      rcases htype with h | h
      · simp only [h, hdistinct.1, hdistinct.2.1, if_false, if_true]
      · simp only [h, hdistinct.2.2.1, hdistinct.2.2.2, if_false, if_true, ite_self]
    simp only [AppendToStream_insert, hdir]
    exact ⟨trivial, StdMap.find_emplace_self _ _ _ hrecv,
      fun key hkey => StdMap.find_emplace_of_ne _ _ _ _ hkey⟩
  · intro h1 h2 h3 h4
    have hdir : EventStreamDirection x event.attr.event_type = StreamDirection.kUnknown := by
      unfold EventStreamDirection
      simp only [h1, h2, h3, h4, if_false]
    simp only [AppendToStream_insert, hdir, and_self]

/-- Witness of the amended C15: a write event admitted to a stream that holds
one read event. -/
theorem AppendToStream_routes_by_direction_witness :
    ∃ stream1,
      StdMap.find (streamsOf
        (AppendToStream (sampleExternals fourByteParser)
          (AppendToStream (sampleExternals fourByteParser)
            (sampleConnector [(GetStreamId 1 1, sampleConn 5)])
            StreamKind.kHTTPStream (sampleEvent 3 4 [1, 2]))
          StreamKind.kHTTPStream (sampleEvent 1 0 [7, 8, 9])) StreamKind.kHTTPStream)
        (GetStreamId 1 1) = some stream1 ∧
      stream1.recv_events = [(4, sampleEvent 3 4 [1, 2])] ∧
      StdMap.find stream1.send_events 0 = some (sampleEvent 1 0 [7, 8, 9]) := by
  obtain ⟨stream1, h1, -, -, h2, -, -⟩ :=
    AppendToStream_routes_by_direction (sampleExternals fourByteParser)
      (AppendToStream (sampleExternals fourByteParser)
        (sampleConnector [(GetStreamId 1 1, sampleConn 5)])
        StreamKind.kHTTPStream (sampleEvent 3 4 [1, 2]))
      StreamKind.kHTTPStream (sampleEvent 1 0 [7, 8, 9])
      { conn := { timestamp_ns := 0, tgid := 1, fd := 5, remote_addr := "-",
                  remote_port := -1 },
        protocol := 1, recv_events := [(4, sampleEvent 3 4 [1, 2])], send_events := [],
        recv_offset := 0, send_offset := 0 }
      (by decide) (by decide) (by decide) (by decide)
  exact ⟨stream1, h1, (h2 (Or.inl rfl)).1, (h2 (Or.inl rfl)).2.1⟩

/-! ## The side check of the transfer -/

/-- The loop of `ParseEventStream` aborts only on its `CHECK`. -/
theorem ParseEventStream_loop_error (x : Externals) (l : List (Nat × socket_data_event_t))
    (next offset : Nat) (e : Fault)
    (h : ParseEventStream_loop x l next offset = Except.error e) :
    e = Fault.check_offset_lt_msg_size := by
  cases l with
  | nil => simp [ParseEventStream_loop] at h
  | cons kv rest =>
    obtain ⟨k, ev⟩ := kv
    by_cases hk : k = next
    · subst hk
      by_cases hoff : offset = 0 ∨ offset < ev.attr.msg_size
      · obtain ⟨msgs, -, hhead⟩ := ParseEventStream_loop_head x k ev rest offset hoff
        rw [hhead] at h
        cases h
      · have h0 : offset ≠ 0 := fun h0 => hoff (Or.inl h0)
        have hge : ¬ offset < ev.attr.msg_size := fun hlt => hoff (Or.inr hlt)
        rw [ParseEventStream_loop_check x k ev rest offset h0 hge] at h
        exact (Except.error.inj h).symm
    · rw [ParseEventStream_loop_gap x k ev rest next offset hk] at h
      cases h

/-- `ParseEventStream` never aborts with the fault of the side check. -/
theorem ParseEventStream_not_side_check (x : Externals) (type : TrafficMessageType)
    (events : StdMap socket_data_event_t) (offset : Nat) :
    ParseEventStream x type events offset ≠
      Except.error Fault.check_requestor_xor_responder := by
  intro h
  unfold ParseEventStream at h
  cases events with
  | nil => simp at h
  | cons kv rest =>
    obtain ⟨first, e0⟩ := kv
    simp only at h
    cases hl : ParseEventStream_loop x ((first, e0) :: rest) first offset with
    | error e =>
      have he := ParseEventStream_loop_error x _ _ _ e hl
      subst he
      simp [hl] at h
    | ok r =>
      simp only [hl] at h
      split at h
      · simp at h
      · split at h
        · simp at h
        · simp at h

/-- The loop body of the transfer aborts on the side check exactly when the
mask of the stream's protocol selects both sides or neither. -/
theorem TransferHTTPStreams_body_side_check (x : Externals) (config_mask_ : List Nat)
    (filter : HTTPHeaderFilter) (stream : EventStream) (mask : Nat)
    (hmask : config_mask_[stream.protocol]? = some mask) :
    TransferHTTPStreams_body x config_mask_ filter stream =
        Except.error Fault.check_requestor_xor_responder ↔
      is_requestor_side x mask = is_responder_side x mask := by
  unfold TransferHTTPStreams_body
  simp only [hmask]
  constructor
  · intro h
    split at h
    · rename_i hx
      cases h1 : is_requestor_side x mask <;> cases h2 : is_responder_side x mask <;>
        simp [h1, h2] at hx ⊢
    · exfalso
      cases hp : ParseEventStream x TrafficMessageType.kMessageTypeResponses
          (resp_events (is_requestor_side x mask) stream)
          (resp_offset (is_requestor_side x mask) stream) with
      | error e =>
        simp only [hp] at h
        have he := Except.error.inj h
        subst he
        exact ParseEventStream_not_side_check x _ _ _ hp
      | ok r => simp [hp] at h
  · intro h
    rw [h]
    simp

/-- The loop of the transfer aborts with the fault of the first stream whose
body aborts. -/
theorem TransferHTTPStreams_loop_error (x : Externals) (config_mask_ : List Nat)
    (filter : HTTPHeaderFilter) (streams : StdMap EventStream) (e : Fault)
    (h : TransferHTTPStreams_loop x config_mask_ filter streams = Except.error e) :
    ∃ kv ∈ streams, TransferHTTPStreams_body x config_mask_ filter kv.2 = Except.error e := by
  induction streams with
  | nil => simp [TransferHTTPStreams_loop] at h
  | cons kv rest ih =>
    obtain ⟨id, stream⟩ := kv
    simp only [TransferHTTPStreams_loop] at h
    cases hb : TransferHTTPStreams_body x config_mask_ filter stream with
    | error e1 =>
      simp only [hb] at h
      have he := Except.error.inj h
      subst he
      exact ⟨(id, stream), List.mem_cons_self _ _, hb⟩
    | ok r =>
      obtain ⟨stream1, rows⟩ := r
      simp only [hb] at h
      cases hl : TransferHTTPStreams_loop x config_mask_ filter rest with
      | error e1 =>
        simp only [hl] at h
        have he := Except.error.inj h
        subst he
        obtain ⟨kv, hkv, hbody⟩ := ih hl
        exact ⟨kv, List.mem_cons_of_mem _ hkv, hbody⟩
      | ok r1 => simp [hl] at h

theorem Nat.or_and_self_ne_zero (a b : Nat) (h : a ≠ 0) : (a ||| b) &&& a ≠ 0 := by
  rw [Nat.and_comm, Nat.and_or_distrib_left, Nat.and_self]
  intro h2
  apply h
  apply Nat.eq_of_testBit_eq
  intro i
  have := congrArg (fun n => Nat.testBit n i) h2
  simp only [Nat.testBit_or, Nat.zero_testBit, Bool.or_eq_false_iff] at this
  simp [this.1]

theorem Nat.or_and_eq_zero (a b c : Nat) (h1 : a &&& c = 0) (h2 : b &&& c = 0) :
    (a ||| b) &&& c = 0 := by
  rw [Nat.and_comm, Nat.and_or_distrib_left, Nat.and_comm c a, Nat.and_comm c b, h1, h2]
  rfl

/-- C16: a transfer over at least one HTTP stream aborts on the side check if
and only if the HTTP mask selects both sides or neither, that is iff
`send_req or recv_resp` and `send_resp or recv_req` have the same truth value;
with exactly one of them true it does not abort on this check. The mask
installed by `InitImpl`, `kSocketTraceSendReq | kSocketTraceRecvResp`, is
requestor side and not responder side, for mask flags that are non-zero and
share no bit. -/
theorem TransferHTTPStreams_fails_fast_iff (x : Externals) (c : SocketTraceConnector)
    (batch : List HTTPRow) (mask : Nat)
    (hne : c.http_streams_ ≠ [])
    (hproto : ∀ kv ∈ c.http_streams_, kv.2.protocol = x.kProtocolHTTP)
    (hmask : c.config_mask_[x.kProtocolHTTP]? = some mask)
    (hbits : x.kSocketTraceSendReq ≠ 0 ∧
      x.kSocketTraceSendReq &&& x.kSocketTraceSendResp = 0 ∧
      x.kSocketTraceSendReq &&& x.kSocketTraceRecvReq = 0 ∧
      x.kSocketTraceRecvResp &&& x.kSocketTraceSendResp = 0 ∧
      x.kSocketTraceRecvResp &&& x.kSocketTraceRecvReq = 0) :
    (TransferHTTPStreams x c batch = Except.error Fault.check_requestor_xor_responder ↔
      is_requestor_side x mask = is_responder_side x mask) ∧
    ((is_requestor_side x mask != is_responder_side x mask) = true →
      TransferHTTPStreams x c batch ≠ Except.error Fault.check_requestor_xor_responder) ∧
    is_requestor_side x (x.kSocketTraceSendReq ||| x.kSocketTraceRecvResp) = true ∧
    is_responder_side x (x.kSocketTraceSendReq ||| x.kSocketTraceRecvResp) = false := by
  have hiff : TransferHTTPStreams x c batch = Except.error Fault.check_requestor_xor_responder ↔
      is_requestor_side x mask = is_responder_side x mask := by
    constructor
    · intro h
      unfold TransferHTTPStreams at h
      cases hl : TransferHTTPStreams_loop x c.config_mask_ c.http_response_header_filter_
          c.http_streams_ with
      | error e =>
        simp only [hl] at h
        have he := Except.error.inj h
        subst he
        obtain ⟨kv, hkv, hbody⟩ := TransferHTTPStreams_loop_error x _ _ _ _ hl
        have hm : c.config_mask_[kv.2.protocol]? = some mask := by
          rw [hproto kv hkv]; exact hmask
        exact (TransferHTTPStreams_body_side_check x _ _ kv.2 mask hm).mp hbody
      | ok r => simp [hl] at h
    · intro h
      cases hs : c.http_streams_ with
      | nil => exact absurd hs hne
      | cons kv rest =>
        obtain ⟨id, stream⟩ := kv
        have hm : c.config_mask_[stream.protocol]? = some mask := by
          rw [hproto (id, stream) (by rw [hs]; exact List.mem_cons_self _ _)]; exact hmask
        have hbody := (TransferHTTPStreams_body_side_check x c.config_mask_
          c.http_response_header_filter_ stream mask hm).mpr h
        unfold TransferHTTPStreams
        simp only [hs, TransferHTTPStreams_loop, hbody]
  refine ⟨hiff, ?_, ?_, ?_⟩
  · intro hx h
    have := hiff.mp h
    rw [this] at hx
    simp at hx
  · unfold is_requestor_side
    have := Nat.or_and_self_ne_zero x.kSocketTraceSendReq x.kSocketTraceRecvResp hbits.1
    simp [this]
  · unfold is_responder_side
    have h1 := Nat.or_and_eq_zero x.kSocketTraceSendReq x.kSocketTraceRecvResp
      x.kSocketTraceSendResp hbits.2.1 hbits.2.2.2.1
    have h2 := Nat.or_and_eq_zero x.kSocketTraceSendReq x.kSocketTraceRecvResp
      x.kSocketTraceRecvReq hbits.2.2.1 hbits.2.2.2.2
    simp [h1, h2]

/-- Witness of C16: one HTTP stream and the mask installed by `InitImpl`. -/
theorem TransferHTTPStreams_fails_fast_iff_witness :
    TransferHTTPStreams (sampleExternals fourByteParser)
        (AppendToStream (sampleExternals fourByteParser)
          (sampleConnector [(GetStreamId 1 1, sampleConn 5)]) StreamKind.kHTTPStream
          (sampleEvent 3 0 [1, 2, 3, 4])) [] =
        Except.error Fault.check_requestor_xor_responder ↔
      is_requestor_side (sampleExternals fourByteParser) 9 =
        is_responder_side (sampleExternals fourByteParser) 9 :=
  (TransferHTTPStreams_fails_fast_iff (sampleExternals fourByteParser)
    (AppendToStream (sampleExternals fourByteParser)
      (sampleConnector [(GetStreamId 1 1, sampleConn 5)]) StreamKind.kHTTPStream
      (sampleEvent 3 0 [1, 2, 3, 4])) [] 9
    (by decide) (by decide) rfl (by decide)).1

/-! ## Selection of responses -/

/-- C18, the code at the failing input: clock offset 1000, a read event with
monotonic timestamp 50 on a registered connection. `AcceptEvent` stores the
event with timestamp 1050; `ParseEventStream` adds the offset again and hands
the slice to the parser with timestamp 2050, which the row carries as `time_`,
where `(t + c) mod 2^64` is 1050. -/
theorem slice_timestamp_adds_offset_twice :
    ∃ stream out c1 rows,
      StdMap.find
        (AcceptEvent sampleExternalsClock (sampleConnector [(GetStreamId 1 1, sampleConnAt 10)])
          (sampleEventAt 3 0 50 [1, 2, 3, 4])).http_streams_ (GetStreamId 1 1) = some stream ∧
      stream.recv_events.map (fun kv => kv.2.attr.timestamp_ns) = [1050] ∧
      ParseEventStream sampleExternalsClock TrafficMessageType.kMessageTypeResponses
        stream.recv_events stream.send_offset = Except.ok out ∧
      out.submitted = [([1, 2, 3, 4], 2050)] ∧
      TransferHTTPStreams sampleExternalsClock
        (AcceptEvent sampleExternalsClock (sampleConnector [(GetStreamId 1 1, sampleConnAt 10)])
          (sampleEventAt 3 0 50 [1, 2, 3, 4])) [] = Except.ok (c1, rows) ∧
      rows.map (fun row => row.time_) = [2050] ∧
      (50 + sampleExternalsClock.ClockRealTimeOffset) % 2 ^ 64 = 1050 :=
  ⟨_, _, _, _, rfl, by decide, rfl, by decide, rfl, by decide, by decide⟩

/-- C19, the code at the failing input: clock offset 1000, a connection opened
at monotonic time 10 and a response whose only event has monotonic timestamp
50. The stream holds the open timestamp 1010, the message inherits the slice
timestamp 2050, and the row carries latency 1040, where the response timestamp
minus the open timestamp is 40. -/
theorem latency_includes_clock_offset :
    ∃ c1 rows,
      TransferHTTPStreams sampleExternalsClock
        (AcceptEvent sampleExternalsClock (sampleConnector [(GetStreamId 1 1, sampleConnAt 10)])
          (sampleEventAt 3 0 50 [1, 2, 3, 4])) [] = Except.ok (c1, rows) ∧
      c1.http_streams_.map (fun kv => kv.2.conn.timestamp_ns) = [1010] ∧
      rows.map (fun row => row.http_resp_latency_ns) = [1040] ∧
      50 - (sampleConnAt 10).timestamp_ns = 40 :=
  ⟨_, _, rfl, by decide, by decide, by decide⟩

/-! ## MySQL events -/

/-- C20: for every data event, whatever the registry holds, `TransferMySQLEvent`
appends exactly one row to the record batch, a value for each of the 7 columns
of the MySQL table, whose tgid is the event's tgid, whose bpf_event is the
event's type, whose body is the first `msg_size` bytes of the event payload and
whose `time_` is the event's monotonic timestamp plus the clock offset (as a
64-bit value). -/
theorem TransferMySQLEvent_appends_one_row (x : Externals) (c : SocketTraceConnector)
    (event : socket_data_event_t) (record_batch : List MySQLRow) :
    ∃ row, TransferMySQLEvent x c event record_batch = record_batch ++ [row] ∧
      row.tgid = event.attr.tgid ∧
      row.bpf_event = event.attr.event_type ∧
      row.body = event.msg.take event.attr.msg_size ∧
      row.time_ = (event.attr.timestamp_ns + x.ClockRealTimeOffset) % 2 ^ 64 :=
  ⟨_, rfl, rfl, rfl, rfl, rfl⟩

/-- C21, the code at the failing input: a connection with descriptor 5 is
registered by `OpenConn` and a MySQL data event of that connection arrives.
The registry lookup finds the record, but the endpoint cache, which only
`RegisterStream` fills, has no entry for the key, so the row carries the
sentinels fd = -1, remote_addr = "-", remote_port = -1. -/
theorem TransferMySQLEvent_registered_gets_sentinels :
    GetConn (OpenConn (sampleConnector []) (sampleConn 5)) (sampleEventOf 3 1 0 [1, 2, 3]) =
      some (sampleConn 5) ∧
    TransferMySQLEvent (sampleExternals fourByteParser)
      (OpenConn (sampleConnector []) (sampleConn 5)) (sampleEventOf 3 1 0 [1, 2, 3]) [] =
      [{ time_ := 0, tgid := 1, fd := -1, bpf_event := 1, remote_addr := "-",
         remote_port := -1, body := [1, 2, 3] }] := by
  decide

/-! ## Ticks that abort -/

/-- C22, the code at the failing input: with the requestor-side mask and the
sample parser, a connection is opened, the read event with sequence number 1
(10 bytes) is admitted, a tick consumes 8 of its bytes, and the read event with
sequence number 0 (3 bytes) is admitted. The next tick aborts on
`CHECK(*offset < event.attr.msg_size)`. -/
theorem tick_aborts_after_late_event :
    (is_requestor_side (sampleExternals fourByteParser) 9 !=
      is_responder_side (sampleExternals fourByteParser) 9) = true ∧
    (∃ c, applyCalls (sampleExternals fourByteParser) (sampleConnector [])
        [ConnectorCall.openConn (sampleConn 5),
          ConnectorCall.acceptEvent (sampleEvent 3 1 [1, 2, 3, 4, 5, 6, 7, 8, 9, 10]),
          ConnectorCall.transfer,
          ConnectorCall.acceptEvent (sampleEvent 3 0 [1, 2, 3])] = some c ∧
      TransferHTTPStreams (sampleExternals fourByteParser) c [] =
        Except.error Fault.check_offset_lt_msg_size) ∧
    applyCalls (sampleExternals fourByteParser) (sampleConnector [])
      [ConnectorCall.openConn (sampleConn 5),
        ConnectorCall.acceptEvent (sampleEvent 3 1 [1, 2, 3, 4, 5, 6, 7, 8, 9, 10]),
        ConnectorCall.transfer,
        ConnectorCall.acceptEvent (sampleEvent 3 0 [1, 2, 3]),
        ConnectorCall.transfer] = none :=
  ⟨by decide, ⟨_, rfl, rfl⟩, rfl⟩

/-! ## HTTP/2 events -/

/-- An HTTP/2 data event leaves `http_streams_`, the masks and the header
filter as they are. -/
theorem AcceptEvent_http2_frame (x : Externals) (c : SocketTraceConnector)
    (event : socket_data_event_t) (hproto : event.attr.protocol = x.kProtocolHTTP2)
    (hne : x.kProtocolHTTP2 ≠ x.kProtocolHTTP) :
    (AcceptEvent x c event).http_streams_ = c.http_streams_ ∧
    (AcceptEvent x c event).config_mask_ = c.config_mask_ ∧
    (AcceptEvent x c event).http_response_header_filter_ = c.http_response_header_filter_ := by
  have key : ∀ e : socket_data_event_t,
      (AppendToStream x c StreamKind.kHTTP2Stream e).http_streams_ = c.http_streams_ ∧
      (AppendToStream x c StreamKind.kHTTP2Stream e).config_mask_ = c.config_mask_ ∧
      (AppendToStream x c StreamKind.kHTTP2Stream e).http_response_header_filter_ =
        c.http_response_header_filter_ := by
    intro e
    unfold AppendToStream
    cases hf : StdMap.find (streamsOf c StreamKind.kHTTP2Stream)
        (GetStreamId e.attr.tgid e.attr.conn_id) with
    | some stream =>
      simp only [hf]
      exact ⟨rfl, rfl, rfl⟩
    | none =>
      cases hg : StdMap.find c.connections_ (GetStreamId e.attr.tgid e.attr.conn_id) with
      | none =>
        simp only [hf, hg]
        exact ⟨trivial, trivial, trivial⟩
      | some conn_info =>
        simp only [hf, hg]
        exact ⟨rfl, rfl, rfl⟩
  unfold AcceptEvent
  simp only [hproto, hne, if_false, if_true]
  exact key _

/-- The rows of a stream transfer depend on the connector only through
`http_streams_`, the masks and the header filter. -/
theorem TransferStreamData_rows_congr (x : Externals) (c c1 : SocketTraceConnector)
    (table_num : Nat) (batch : List HTTPRow)
    (h1 : c1.http_streams_ = c.http_streams_) (h2 : c1.config_mask_ = c.config_mask_)
    (h3 : c1.http_response_header_filter_ = c.http_response_header_filter_) :
    (TransferStreamData x c1 table_num batch).map Prod.snd =
      (TransferStreamData x c table_num batch).map Prod.snd := by
  unfold TransferStreamData
  split
  · unfold TransferHTTPStreams
    rw [h1, h2, h3]
    cases TransferHTTPStreams_loop x c.config_mask_ c.http_response_header_filter_
      c.http_streams_ with
    | error e => rfl
    | ok r => rfl
  · split
    · rfl
    · rfl

/-- C23, as stated, fails: after the HEADERS event and the DATA event of an
opened HTTP/2 connection are admitted, the next tick emits no record. -/
theorem HTTP2_frames_emit_nothing :
    ∃ c,
      TransferStreamData (sampleExternals fourByteParser)
        (AcceptEvent (sampleExternals fourByteParser)
          (AcceptEvent (sampleExternals fourByteParser)
            (OpenConn (sampleConnector []) (sampleConn 5))
            (sampleEventOf 2 5 0 [1, 2, 3, 4]))
          (sampleEventOf 2 6 1 [5, 6, 7, 8])) kHTTPTableNum [] = Except.ok (c, []) :=
  ⟨_, rfl⟩

/-- C23, amended: admitting HTTP/2 events (such as the HEADERS and DATA events
of a gRPC request) makes the next tick emit no record for them: HTTP/2 events
are at most stored in `http2_streams_`, which the stream transfer does not
read, so the tick emits the rows it would emit had the events not been
admitted. -/
theorem HTTP2_events_do_not_change_rows (x : Externals) (events : List socket_data_event_t)
    (table_num : Nat) (batch : List HTTPRow)
    (hne : x.kProtocolHTTP2 ≠ x.kProtocolHTTP)
    (hproto : ∀ e ∈ events, e.attr.protocol = x.kProtocolHTTP2) :
    ∀ c : SocketTraceConnector,
      (TransferStreamData x (events.foldl (AcceptEvent x) c) table_num batch).map Prod.snd =
        (TransferStreamData x c table_num batch).map Prod.snd := by
  induction events with
  | nil => intro c; rfl
  | cons e rest ih =>
    intro c
    rw [List.foldl_cons, ih (fun e1 he1 => hproto e1 (List.mem_cons_of_mem _ he1))]
    obtain ⟨h1, h2, h3⟩ := AcceptEvent_http2_frame x c e (hproto e (List.mem_cons_self _ _)) hne
    exact TransferStreamData_rows_congr x c _ table_num batch h1 h2 h3

/-- Witness of the amended C23: the HEADERS and DATA events of an opened
connection. -/
theorem HTTP2_events_do_not_change_rows_witness :
    (TransferStreamData (sampleExternals fourByteParser)
      ([sampleEventOf 2 5 0 [1, 2, 3, 4], sampleEventOf 2 6 1 [5, 6, 7, 8]].foldl
        (AcceptEvent (sampleExternals fourByteParser))
        (OpenConn (sampleConnector []) (sampleConn 5))) kHTTPTableNum []).map Prod.snd =
      (TransferStreamData (sampleExternals fourByteParser)
        (OpenConn (sampleConnector []) (sampleConn 5)) kHTTPTableNum []).map Prod.snd :=
  HTTP2_events_do_not_change_rows (sampleExternals fourByteParser)
    [sampleEventOf 2 5 0 [1, 2, 3, 4], sampleEventOf 2 6 1 [5, 6, 7, 8]] kHTTPTableNum []
    (by decide) (by decide) _

/-- C24: for every frame flags value, the `end_stream` the HEADERS probes and
the DATA probes pass on is true if and only if bit 0x1 of the flags is set; it
is the same for two flags values that agree on that bit. -/
theorem end_stream_iff_bit0 (flags : Nat) :
    headers_end_stream flags = flags.testBit 0 ∧
    data_end_stream flags = flags.testBit 0 ∧
    headers_end_stream flags = headers_end_stream (flags % 2) ∧
    data_end_stream flags = data_end_stream (flags % 2) := by
  have key : ∀ n : Nat, (decide ((n % 2 ^ 8) &&& 1 ≠ 0)) = n.testBit 0 := by
    intro n
    rw [Nat.and_one_is_mod, Nat.testBit_zero]
    have h : n % 2 ^ 8 % 2 = n % 2 := by omega
    rw [h]
    rcases Nat.mod_two_eq_zero_or_one n with h0 | h1
    · simp [h0]
    · simp [h1]
  have hbit : (flags % 2).testBit 0 = flags.testBit 0 := by
    rw [Nat.testBit_zero, Nat.testBit_zero]
    have h : flags % 2 % 2 = flags % 2 := by omega
    rw [h]
  unfold headers_end_stream data_end_stream kFlagHeadersEndStream kFlagDataEndStream
  refine ⟨key flags, key flags, ?_, ?_⟩
  · rw [key flags, key (flags % 2), hbit]
  · rw [key flags, key (flags % 2), hbit]

/-! ## Table numbers -/

/-- The loop of `TableNum` started at index `i` stops at the first table with
the name of the key, or runs to the end when there is none. -/
theorem TableNum_loop_spec (key : DataTableSchema) (tables : List DataTableSchema) :
    ∀ i : Nat,
      i ≤ TableNum_loop key tables i ∧ TableNum_loop key tables i ≤ i + tables.length ∧
      (∀ j, j < TableNum_loop key tables i - i →
        (tables[j]?).map (fun t => t.name) ≠ some key.name) ∧
      (TableNum_loop key tables i < i + tables.length →
        (tables[TableNum_loop key tables i - i]?).map (fun t => t.name) = some key.name) ∧
      (TableNum_loop key tables i = i + tables.length → ∀ t ∈ tables, t.name ≠ key.name) := by
  induction tables with
  | nil =>
    intro i
    simp [TableNum_loop]
  | cons table rest ih =>
    intro i
    by_cases hname : table.name = key.name
    · simp [TableNum_loop, hname]
    · obtain ⟨h1, h2, h3, h4, h5⟩ := ih (i + 1)
      simp only [TableNum_loop, hname, if_false, List.length_cons]
      refine ⟨by omega, by omega, ?_, ?_, ?_⟩
      · intro j hj
        cases j with
        | zero =>
          simp only [List.getElem?_cons_zero, Option.map_some']
          intro h
          exact hname (Option.some.inj h)
        | succ k =>
          simp only [List.getElem?_cons_succ]
          exact h3 k (by omega)
      · intro hlt
        have hidx : TableNum_loop key rest (i + 1) - i =
            (TableNum_loop key rest (i + 1) - (i + 1)) + 1 := by omega
        rw [hidx, List.getElem?_cons_succ]
        exact h4 (by omega)
      · intro heq t ht
        rcases List.mem_cons.mp ht with h | h
        · rw [h]; exact hname
        · exact h5 (by omega) t h

/-- C26: when some table of the array has the name of the key, `TableNum`
returns the smallest index of a table with that name; when none has, the call
is rejected by the compile-time assert; for `kTables` this gives
`kHTTPTableNum = 0` and `kMySQLTableNum = 1`. -/
theorem TableNum_first_match (tables : List DataTableSchema) (key : DataTableSchema) :
    ((∃ t ∈ tables, t.name = key.name) →
      ∃ i, TableNum tables key = Except.ok i ∧ i < tables.length ∧
        (tables[i]?).map (fun t => t.name) = some key.name ∧
        ∀ j, j < i → (tables[j]?).map (fun t => t.name) ≠ some key.name) ∧
    ((∀ t ∈ tables, t.name ≠ key.name) →
      TableNum tables key = Except.error Fault.compile_time_assert) ∧
    TableNum kTables kHTTPTable = Except.ok 0 ∧
    TableNum kTables kMySQLTable = Except.ok 1 ∧
    kHTTPTableNum = 0 ∧ kMySQLTableNum = 1 := by
  obtain ⟨h1, h2, h3, h4, h5⟩ := TableNum_loop_spec key tables 0
  refine ⟨?_, ?_, rfl, rfl, rfl, rfl⟩
  · intro hex
    have hne : TableNum_loop key tables 0 ≠ tables.length := by
      intro heq
      obtain ⟨t, ht, hname⟩ := hex
      exact h5 (by omega) t ht hname
    refine ⟨TableNum_loop key tables 0, ?_, by omega, ?_, ?_⟩
    · unfold TableNum
      rw [if_pos hne]
    · simpa using h4 (by omega)
    · intro j hj
      exact h3 j (by omega)
  · intro hall
    have heq : TableNum_loop key tables 0 = tables.length := by
      by_contra hne
      have hlt : TableNum_loop key tables 0 < 0 + tables.length := by omega
      have hget := h4 hlt
      simp only [Nat.sub_zero] at hget
      cases hidx : tables[TableNum_loop key tables 0]? with
      | none => simp [hidx] at hget
      | some t =>
        simp only [hidx, Option.map_some', Option.some.injEq] at hget
        exact hall t (List.getElem?_mem hidx) hget
    unfold TableNum
    rw [if_neg (by simp [heq])]

/-- Witness of C26: the table array of the connector and the MySQL table. -/
theorem TableNum_first_match_witness :
    ∃ i, TableNum kTables kMySQLTable = Except.ok i ∧ i < kTables.length ∧
      (kTables[i]?).map (fun t => t.name) = some kMySQLTable.name ∧
      ∀ j, j < i → (kTables[j]?).map (fun t => t.name) ≠ some kMySQLTable.name :=
  (TableNum_first_match kTables kMySQLTable).1 ⟨kMySQLTable, by decide, rfl⟩

/-! ## Header events -/

/-- The unrolled loop of `submit_headers` submits one event for each of the
next `count` fields from index `i` on, each filled from the event it started
with, and leaves the attributes of the event as they were. -/
theorem submit_headers_loop_spec (b : BpfContext) (fields : List (List Nat × List Nat)) :
    ∀ (count i : Nat) (event : go_grpc_http2_header_event_t),
      (submit_headers_loop b fields i count event).2 =
        ((fields.drop i).take count).map (fill_header_field b event) ∧
      (submit_headers_loop b fields i count event).1.attr = event.attr := by
  intro count
  induction count with
  | zero =>
    intro i event
    simp [submit_headers_loop]
  | succ n ih =>
    intro i event
    cases hf : fields[i]? with
    | none =>
      have hlen : fields.length ≤ i := by
        by_contra hlt
        have hsome := List.getElem?_eq_getElem (Nat.lt_of_not_le hlt)
        rw [hf] at hsome
        cases hsome
      obtain ⟨h1, h2⟩ := ih (i + 1) event
      have hd : fields.drop i = [] := List.drop_eq_nil_iff.mpr hlen
      have hd1 : fields.drop (i + 1) = [] := List.drop_eq_nil_iff.mpr (by omega)
      simp only [submit_headers_loop, hf]
      rw [h1, h2, hd, hd1]
      simp
    | some field =>
      obtain ⟨hlt, hget⟩ := List.getElem?_eq_some.mp hf
      obtain ⟨h1, h2⟩ := ih (i + 1) (fill_header_field b event field)
      have hd : fields.drop i = field :: fields.drop (i + 1) := by
        rw [List.drop_eq_getElem_cons hlt, hget]
      simp only [submit_headers_loop, hf]
      rw [h1, h2, hd]
      refine ⟨?_, rfl⟩
      simp only [List.take_succ_cons, List.map_cons]
      rfl

/-- C25: for an unknown connection `submit_headers` emits nothing. For a known
connection and a header list of `n` fields it emits one header event per field,
in field order, for the first `min(n, 64)` fields, each with `end_stream` false,
and then, if and only if `end_stream` is set, one extra event with name and
value of size 0 and `end_stream` true; all events carry the connection id of
the connection and the stream id. -/
theorem submit_headers_events (b : BpfContext) (probe_type type : Nat) (fd : Int)
    (stream_id : Nat) (end_stream : Bool) (fields : List (List Nat × List Nat)) :
    (b.get_conn_info b.tgid fd = none →
      submit_headers b probe_type type fd stream_id end_stream fields = []) ∧
    (∀ conn_id, b.get_conn_info b.tgid fd = some conn_id →
      ∃ extra,
        submit_headers b probe_type type fd stream_id end_stream fields =
          (fields.take MAX_HEADER_COUNT).map (fill_header_field b
            { attr := { probe_type := probe_type, type := type,
                        timestamp_ns := b.bpf_ktime_get_ns, conn_id := conn_id,
                        stream_id := stream_id, end_stream := false },
              name := { size := 0, msg := [] }, value := { size := 0, msg := [] } }) ++
            (if end_stream = true then [extra] else []) ∧
        ((fields.take MAX_HEADER_COUNT).map (fill_header_field b
            { attr := { probe_type := probe_type, type := type,
                        timestamp_ns := b.bpf_ktime_get_ns, conn_id := conn_id,
                        stream_id := stream_id, end_stream := false },
              name := { size := 0, msg := [] }, value := { size := 0, msg := [] } })).length =
          min fields.length 64 ∧
        extra.name.size = 0 ∧ extra.value.size = 0 ∧ extra.attr.end_stream = true ∧
        (∀ e ∈ submit_headers b probe_type type fd stream_id end_stream fields,
          e.attr.conn_id = conn_id ∧ e.attr.stream_id = stream_id ∧
          (e.attr.end_stream = true → e = extra))) := by
  constructor
  · intro hnone
    simp [submit_headers, hnone]
  · intro conn_id hsome
    obtain ⟨h1, h2⟩ := submit_headers_loop_spec b fields MAX_HEADER_COUNT 0
      { attr := { probe_type := probe_type, type := type,
                  timestamp_ns := b.bpf_ktime_get_ns, conn_id := conn_id,
                  stream_id := stream_id, end_stream := false },
        name := { size := 0, msg := [] }, value := { size := 0, msg := [] } }
    rw [List.drop_zero] at h1
    refine ⟨{ (submit_headers_loop b fields 0 MAX_HEADER_COUNT
        { attr := { probe_type := probe_type, type := type,
                    timestamp_ns := b.bpf_ktime_get_ns, conn_id := conn_id,
                    stream_id := stream_id, end_stream := false },
          name := { size := 0, msg := [] }, value := { size := 0, msg := [] } }).1 with
        name := { (submit_headers_loop b fields 0 MAX_HEADER_COUNT
          { attr := { probe_type := probe_type, type := type,
                      timestamp_ns := b.bpf_ktime_get_ns, conn_id := conn_id,
                      stream_id := stream_id, end_stream := false },
            name := { size := 0, msg := [] }, value := { size := 0, msg := [] } }).1.name with
          size := 0 },
        value := { (submit_headers_loop b fields 0 MAX_HEADER_COUNT
          { attr := { probe_type := probe_type, type := type,
                      timestamp_ns := b.bpf_ktime_get_ns, conn_id := conn_id,
                      stream_id := stream_id, end_stream := false },
            name := { size := 0, msg := [] }, value := { size := 0, msg := [] } }).1.value with
          size := 0 },
        attr := { (submit_headers_loop b fields 0 MAX_HEADER_COUNT
          { attr := { probe_type := probe_type, type := type,
                      timestamp_ns := b.bpf_ktime_get_ns, conn_id := conn_id,
                      stream_id := stream_id, end_stream := false },
            name := { size := 0, msg := [] }, value := { size := 0, msg := [] } }).1.attr with
          end_stream := true } }, ?_, ?_, rfl, rfl, rfl, ?_⟩
    · simp only [submit_headers, hsome]
      rw [h1]
      cases end_stream <;> simp
    · simp [MAX_HEADER_COUNT, Nat.min_comm]
    · intro e he
      simp only [submit_headers, hsome] at he
      rw [h1] at he
      have hfield : ∀ e1 ∈ (fields.take MAX_HEADER_COUNT).map (fill_header_field b
          { attr := { probe_type := probe_type, type := type,
                      timestamp_ns := b.bpf_ktime_get_ns, conn_id := conn_id,
                      stream_id := stream_id, end_stream := false },
            name := { size := 0, msg := [] }, value := { size := 0, msg := [] } }),
          e1.attr.conn_id = conn_id ∧ e1.attr.stream_id = stream_id ∧
          e1.attr.end_stream = false := by
        intro e1 he1
        obtain ⟨f, -, hf⟩ := List.mem_map.mp he1
        rw [← hf]
        exact ⟨rfl, rfl, rfl⟩
      cases end_stream with
      | false =>
        simp only [Bool.false_eq_true, if_false] at he
        obtain ⟨ha, hb, hc⟩ := hfield e he
        exact ⟨ha, hb, fun h => by rw [hc] at h; cases h⟩
      | true =>
        simp only [if_true, List.mem_append, List.mem_singleton] at he
        rcases he with he | he
        · obtain ⟨ha, hb, hc⟩ := hfield e he
          exact ⟨ha, hb, fun h => by rw [hc] at h; cases h⟩
        · subst he
          simp only [h2]
          exact ⟨trivial, trivial, fun _ => trivial⟩

/-- Witness of C25: two fields and `end_stream` set, on the known connection 7
and on an unknown descriptor. -/
theorem submit_headers_events_witness :
    submit_headers sampleBpfContext 1 0 6 3 true [([1, 2], [3]), ([4], [5, 6])] = [] ∧
    (submit_headers sampleBpfContext 1 0 5 3 true [([1, 2], [3]), ([4], [5, 6])]).map
        (fun e => (e.attr.conn_id, e.attr.stream_id, e.attr.end_stream, e.name.size,
          e.value.size)) =
      [(7, 3, false, 2, 1), (7, 3, false, 1, 2), (7, 3, true, 0, 0)] :=
  ⟨(submit_headers_events sampleBpfContext 1 0 6 3 true [([1, 2], [3]), ([4], [5, 6])]).1
      (by decide), by decide⟩

/-! ## Directions and offsets in the transfer -/

/-- C27, the code at the failing input: requestor side, one stream holding a
read event of 10 bytes and a write event of 6 bytes, both offsets 0. The
transfer parses the responses from `recv_events` and stops after 8 bytes, but
it stores that offset in `send_offset`; `recv_offset` is still 0. -/
theorem TransferHTTPStreams_writes_send_offset :
    is_requestor_side (sampleExternals fourByteParser) 9 = true ∧
    (AcceptEvent (sampleExternals fourByteParser)
      (AcceptEvent (sampleExternals fourByteParser)
        (sampleConnector [(GetStreamId 1 1, sampleConn 5)])
        (sampleEvent 3 0 [1, 2, 3, 4, 5, 6, 7, 8, 9, 10]))
      (sampleEvent 1 0 [1, 2, 3, 4, 5, 6])).http_streams_.map
        (fun kv => (kv.2.recv_events.length, kv.2.recv_offset, kv.2.send_events.length,
          kv.2.send_offset)) = [(1, 0, 1, 0)] ∧
    ∃ c1 rows,
      TransferHTTPStreams (sampleExternals fourByteParser)
        (AcceptEvent (sampleExternals fourByteParser)
          (AcceptEvent (sampleExternals fourByteParser)
            (sampleConnector [(GetStreamId 1 1, sampleConn 5)])
            (sampleEvent 3 0 [1, 2, 3, 4, 5, 6, 7, 8, 9, 10]))
          (sampleEvent 1 0 [1, 2, 3, 4, 5, 6])) [] = Except.ok (c1, rows) ∧
      rows.length = 2 ∧
      c1.http_streams_.map
        (fun kv => (kv.2.recv_events.length, kv.2.recv_offset, kv.2.send_events.length,
          kv.2.send_offset)) = [(1, 0, 1, 8)] :=
  ⟨by decide, by decide, _, _, rfl, by decide, by decide⟩

/-! ## Selection, as coded -/

/-- C28, as stated, fails: a message that is neither an HTTP request nor an HTTP
response and carries a Content-Type header is selected, whatever the filter and
whatever the header match says, and `ConsumeHTTPMessage` appends a row for
it. -/
theorem SelectHTTPMessage_selects_other_kind :
    ({ (sampleResponse [("Content-Type", "text/html")]).message with
        type := SocketTraceEventType.kUnknown }).type ≠ SocketTraceEventType.kHTTPResponse ∧
    ∀ (m : List (String × String) → HTTPHeaderFilter → Bool) (filter : HTTPHeaderFilter),
      SelectHTTPMessage { sampleExternals fourByteParser with MatchesHTTPTHeaders := m }
        filter
        { conn := (sampleResponse []).conn,
          message := { (sampleResponse [("Content-Type", "text/html")]).message with
            type := SocketTraceEventType.kUnknown } } = true ∧
      (ConsumeHTTPMessage { sampleExternals fourByteParser with MatchesHTTPTHeaders := m }
        filter
        { conn := (sampleResponse []).conn,
          message := { (sampleResponse [("Content-Type", "text/html")]).message with
            type := SocketTraceEventType.kUnknown } }).length = 1 :=
  ⟨by decide, fun _ _ => ⟨rfl, rfl⟩⟩

/-- C28, amended: `SelectHTTPMessage` returns true if and only if the record is
not an HTTP request, carries a Content-Type header, and either is not an HTTP
response, or the filter has no inclusions and no exclusions, or the headers
match the filter. For a record that is an HTTP request or an HTTP response this
is the claim as stated: true if and only if it is an HTTP response, carries a
Content-Type header, and the filter is empty or matches. Every HTTP request and
every message without a Content-Type header is rejected whatever the filter is,
and `ConsumeHTTPMessage` appends a row (one) exactly when `SelectHTTPMessage`
returns true. -/
theorem SelectHTTPMessage_iff (x : Externals) (filter : HTTPHeaderFilter)
    (record : HTTPTraceRecord) :
    (SelectHTTPMessage x filter record = true ↔
      record.message.type ≠ SocketTraceEventType.kHTTPRequest ∧
      (∃ p ∈ record.message.http_headers, p.1 = x.kContentType) ∧
      (record.message.type ≠ SocketTraceEventType.kHTTPResponse ∨
        (filter.inclusions = [] ∧ filter.exclusions = []) ∨
        x.MatchesHTTPTHeaders record.message.http_headers filter = true)) ∧
    ((record.message.type = SocketTraceEventType.kHTTPRequest ∨
        record.message.type = SocketTraceEventType.kHTTPResponse) →
      (SelectHTTPMessage x filter record = true ↔
        record.message.type = SocketTraceEventType.kHTTPResponse ∧
        (∃ p ∈ record.message.http_headers, p.1 = x.kContentType) ∧
        ((filter.inclusions = [] ∧ filter.exclusions = []) ∨
          x.MatchesHTTPTHeaders record.message.http_headers filter = true))) ∧
    (record.message.type = SocketTraceEventType.kHTTPRequest →
      SelectHTTPMessage x filter record = false) ∧
    ((¬ ∃ p ∈ record.message.http_headers, p.1 = x.kContentType) →
      SelectHTTPMessage x filter record = false) ∧
    (ConsumeHTTPMessage x filter record ≠ [] ↔ SelectHTTPMessage x filter record = true) ∧
    (ConsumeHTTPMessage x filter record).length =
      if SelectHTTPMessage x filter record = true then 1 else 0 := by
  have hfind : (record.message.http_headers.find? (fun p => p.1 = x.kContentType)).isNone =
      true ↔ ¬ ∃ p ∈ record.message.http_headers, p.1 = x.kContentType := by
    cases hf : record.message.http_headers.find? (fun p => p.1 = x.kContentType) with
    | none =>
      simp only [Option.isNone_none, true_iff]
      rintro ⟨p, hp, hpk⟩
      have := List.find?_eq_none.mp hf p hp
      simp [hpk] at this
    | some q =>
      simp only [Option.isNone_some, Bool.false_eq_true, false_iff, not_not]
      refine ⟨q, List.mem_of_find?_eq_some hf, ?_⟩
      have := List.find?_some hf
      simpa using this
  have hgen : SelectHTTPMessage x filter record = true ↔
      record.message.type ≠ SocketTraceEventType.kHTTPRequest ∧
      (∃ p ∈ record.message.http_headers, p.1 = x.kContentType) ∧
      (record.message.type ≠ SocketTraceEventType.kHTTPResponse ∨
        (filter.inclusions = [] ∧ filter.exclusions = []) ∨
        x.MatchesHTTPTHeaders record.message.http_headers filter = true) := by
    unfold SelectHTTPMessage
    by_cases hreq : record.message.type = SocketTraceEventType.kHTTPRequest
    · simp [hreq]
    · by_cases hct : ∃ p ∈ record.message.http_headers, p.1 = x.kContentType
      · have hnone : (record.message.http_headers.find?
            (fun p => p.1 = x.kContentType)).isNone = false := by
          cases hb : (record.message.http_headers.find?
            (fun p => p.1 = x.kContentType)).isNone with
          | false => rfl
          | true => exact absurd hct (hfind.mp hb)
        by_cases hresp : record.message.type = SocketTraceEventType.kHTTPResponse
        · by_cases hin : filter.inclusions = []
          · by_cases hex : filter.exclusions = []
            · simp [hreq, hnone, hct, hresp, hin, hex]
            · simp [hreq, hnone, hct, hresp, hin, hex]
          · simp [hreq, hnone, hct, hresp, hin]
        · simp [hreq, hnone, hct, hresp]
      · have hnone := hfind.mpr hct
        simp [hreq, hnone, hct]
  refine ⟨hgen, ?_, ?_, ?_, ?_, ?_⟩
  · intro htype
    rw [hgen]
    rcases htype with h | h
    · simp [h]
    · simp [h]
  · intro h
    simp [SelectHTTPMessage, h]
  · intro hct
    have hnone := hfind.mpr hct
    unfold SelectHTTPMessage
    by_cases h : record.message.type = SocketTraceEventType.kHTTPRequest
    · simp [h]
    · simp [h, hnone]
  · unfold ConsumeHTTPMessage
    cases SelectHTTPMessage x filter record <;> simp
  · unfold ConsumeHTTPMessage
    cases SelectHTTPMessage x filter record <;> simp

/-- Witness of the amended C28: a JSON response and the default filter; the
record is a response, so it is selected exactly as the claim states. -/
theorem SelectHTTPMessage_iff_witness :
    SelectHTTPMessage sampleExternalsFilter
        { inclusions := [("Content-Type", "json")], exclusions := [] }
        (sampleResponse [("Content-Type", "application/json")]) = true ↔
      (sampleResponse [("Content-Type", "application/json")]).message.type =
        SocketTraceEventType.kHTTPResponse ∧
      (∃ p ∈ (sampleResponse [("Content-Type", "application/json")]).message.http_headers,
        p.1 = sampleExternalsFilter.kContentType) ∧
      ((({ inclusions := [("Content-Type", "json")], exclusions := [] } :
          HTTPHeaderFilter).inclusions = [] ∧
        ({ inclusions := [("Content-Type", "json")], exclusions := [] } :
          HTTPHeaderFilter).exclusions = []) ∨
        sampleExternalsFilter.MatchesHTTPTHeaders
          (sampleResponse [("Content-Type", "application/json")]).message.http_headers
          { inclusions := [("Content-Type", "json")], exclusions := [] } = true) :=
  (SelectHTTPMessage_iff sampleExternalsFilter
    { inclusions := [("Content-Type", "json")], exclusions := [] }
    (sampleResponse [("Content-Type", "application/json")])).2.1 (Or.inr rfl)

/-! ## Configuration -/

/-- C29: for a protocol within `config_mask_`, `Configure(protocol, mask)`
returns OK exactly when the control-map update succeeds, and then
`config_mask_[protocol]` is the mask and the masks of all other protocols, like
the rest of the connector, are unchanged; when the update fails it returns an
Internal error and the connector, `config_mask_` included, is unchanged. -/
theorem Configure_atomic (update_res_code : Int) (c : SocketTraceConnector)
    (protocol config_mask : Nat) (hrange : protocol < c.config_mask_.length) :
    (update_res_code = 0 →
      ∃ c1, Configure update_res_code c protocol config_mask = Except.ok (Status.OK, c1) ∧
        c1.config_mask_[protocol]? = some config_mask ∧
        (∀ other, other ≠ protocol → c1.config_mask_[other]? = c.config_mask_[other]?) ∧
        c1.config_mask_.length = c.config_mask_.length ∧
        c1.http_streams_ = c.http_streams_ ∧ c1.http2_streams_ = c.http2_streams_ ∧
        c1.connections_ = c.connections_ ∧ c1.ip_endpoints_ = c.ip_endpoints_) ∧
    (update_res_code ≠ 0 →
      Configure update_res_code c protocol config_mask =
        Except.ok (Status.Internal "Failed to set control map", c)) ∧
    (∀ c1, Configure update_res_code c protocol config_mask = Except.ok (Status.OK, c1) →
      update_res_code = 0) := by
  refine ⟨?_, ?_, ?_⟩
  · intro hok
    refine ⟨{ c with config_mask_ := c.config_mask_.set protocol config_mask }, ?_, ?_, ?_,
      ?_, rfl, rfl, rfl, rfl⟩
    · simp [Configure, hok, hrange]
    · simp [hrange]
    · intro other hother
      simp only
      rw [List.getElem?_set_ne (fun h => hother h.symm)]
    · simp
  · intro hfail
    simp [Configure, hfail]
  · intro c1 h
    by_contra hne
    simp [Configure, hne] at h

/-- Witness of C29: the HTTP mask of `InitImpl` is installed. -/
theorem Configure_atomic_witness :
    ∃ c1, Configure 0 (sampleConnector []) 1 9 = Except.ok (Status.OK, c1) ∧
      c1.config_mask_[1]? = some 9 ∧
      (∀ other, other ≠ 1 → c1.config_mask_[other]? = (sampleConnector []).config_mask_[other]?) ∧
      c1.config_mask_.length = (sampleConnector []).config_mask_.length ∧
      c1.http_streams_ = (sampleConnector []).http_streams_ ∧
      c1.http2_streams_ = (sampleConnector []).http2_streams_ ∧
      c1.connections_ = (sampleConnector []).connections_ ∧
      c1.ip_endpoints_ = (sampleConnector []).ip_endpoints_ :=
  (Configure_atomic 0 (sampleConnector []) 1 9 (by decide)).1 rfl

/-! ## The order of a tick -/

/-- C30: with the perf buffers opened, for every table number that
`TransferDataImpl` accepts (below the number of tables, 2) a tick polls exactly
three perf buffers, `socket_open_conns`, then the data buffer of the table
(`socket_http_events` for table 0, `socket_mysql_events` for table 1), then
`socket_close_conns`, and runs the stream transfer after them; it never polls
`socket_http2_events`. A table number of 2 or more is rejected by the
`CHECK_LT`. -/
theorem TransferDataImpl_order (opened : String → Bool) (table_num : Nat)
    (hopened : ∀ name, opened name = true) :
    kTables.length = 2 ∧
    (table_num < kTables.length →
      ∃ data_buffer,
        TransferDataImpl opened table_num =
          Except.ok [TickAction.poll "socket_open_conns", TickAction.poll data_buffer,
            TickAction.poll "socket_close_conns", TickAction.transferStreamData table_num] ∧
        (table_num = kHTTPTableNum → data_buffer = "socket_http_events") ∧
        (table_num = kMySQLTableNum → data_buffer = "socket_mysql_events") ∧
        data_buffer ≠ "socket_http2_events") ∧
    (¬ table_num < kTables.length →
      TransferDataImpl opened table_num = Except.error Fault.check_table_num) := by
  refine ⟨rfl, ?_, ?_⟩
  · intro hlt
    have hcases : table_num = 0 ∨ table_num = 1 := by
      have : kTables.length = 2 := rfl
      omega
    rcases hcases with h | h
    · subst h
      refine ⟨"socket_http_events", ?_, fun _ => rfl, fun h => ?_, by decide⟩
      · simp [TransferDataImpl, ReadPerfBuffer, kTablePerfBufferMap, kHTTPPerfBufferNames,
          kTables, hopened]
      · exact absurd h (by decide)
    · subst h
      refine ⟨"socket_mysql_events", ?_, fun h => ?_, fun _ => rfl, by decide⟩
      · simp [TransferDataImpl, ReadPerfBuffer, kTablePerfBufferMap, kMySQLPerfBufferNames,
          kTables, hopened]
      · exact absurd h (by decide)
  · intro hge
    simp [TransferDataImpl, hge]

/-- Witness of C30: the tick of the HTTP table with every buffer opened. -/
theorem TransferDataImpl_order_witness :
    TransferDataImpl (fun _ => true) kHTTPTableNum =
      Except.ok [TickAction.poll "socket_open_conns", TickAction.poll "socket_http_events",
        TickAction.poll "socket_close_conns", TickAction.transferStreamData kHTTPTableNum] := by
  obtain ⟨data_buffer, h1, h2, -, -⟩ :=
    (TransferDataImpl_order (fun _ => true) kHTTPTableNum (fun _ => rfl)).2.1 (by decide)
  rw [h1, h2 rfl]

end pl.stirling
